import Mathlib

/-!
# slog: levels, the sugared logger, buffering decorators and the exit chain

A shallow embedding of the parts of the `slog` logging library that its
specification makes claims about, followed by the theorems that settle them.

Conventions of the embedding

* Go pointers are addresses (`Ptr`) into an explicit `Heap`.
* A Go `error` is `Option GoError`: `none` is `nil`.
* An `io.Writer` is a `Sink`: the bytes it has received so far together with a
  description of how it answers each `Write`.
* Code of the repository that is not among the available sources is modelled
  from the specification and marked `Modelled from the spec:`.
-/

namespace Slog

/-! ## Levels -/

/-- The type `Level` of the library: an unsigned small integer, lower value = higher severity. -/
abbrev Level := Nat

/-- Modelled from the spec: the canonical level constants `PanicLevel` ... `PrintLevel`.
Their declaration is not among the sources and the specification fixes only the
names and their order, so the numeric values are parameters of the embedding. -/
structure LevelValues where
  PanicLevel : Level
  FatalLevel : Level
  ErrorLevel : Level
  WarnLevel : Level
  NoticeLevel : Level
  InfoLevel : Level
  DebugLevel : Level
  TraceLevel : Level
  PrintLevel : Level
  deriving DecidableEq, Repr

/-- One assignment of values to the level constants, increasing in steps of one hundred
from `PanicLevel`; used to instantiate the parametric statements. -/
def hundreds : LevelValues :=
  { PanicLevel := 100, FatalLevel := 200, ErrorLevel := 300, WarnLevel := 400,
    NoticeLevel := 500, InfoLevel := 600, DebugLevel := 700, TraceLevel := 800,
    PrintLevel := 900 }

/-- Modelled from the spec: `Level.ShouldHandling`, whose declaration is not among the
sources: "true iff the receiver's configured threshold is numerically >= severity of
`event`". The receiver `l` is the threshold, `level` the level of the event. -/
def ShouldHandling (l : Level) (level : Level) : Bool :=
  decide (l ≥ level)

/-! ## Basic data -/

/-- A Go pointer: the address of an object in the `Heap`. -/
abbrev Ptr := Nat

/-- A byte sequence (`[]byte`). -/
abbrev Bytes := List UInt8

/-- A non-nil Go `error`, identified by its message. -/
abbrev GoError := String

/-- The dynamic value of a `Formatter` interface: which formatter it is, with the one
field of `TextFormatter` this code assigns. -/
inductive Formatter where
  | TextFormatter (EnableColor : Bool)
  | JSONFormatter
  | custom (id : Nat)
  deriving DecidableEq, Repr

/-- The dynamic value of an `io.Writer` held by a logger: `os.Stdout` or some other writer. -/
inductive Output where
  | Stdout
  | writer (id : Nat)
  deriving DecidableEq, Repr

/-- The dynamic value of a `Handler` interface stored in a logger: the address of the
handler together with whether its dynamic type is `*SugaredLogger` (what the type
assertion `handler.(*SugaredLogger)` tests). -/
inductive HandlerRef where
  | sugared (p : Ptr)
  | other (p : Ptr)
  deriving DecidableEq, Repr

/-- The struct `SugaredLogger`: the embedded `*Logger` pointer and the three public fields. -/
structure SugaredLogger where
  Logger : Ptr
  Formatter : Formatter
  Output : Output
  Level : Level
  deriving DecidableEq, Repr

/-- Embeds `SugaredLogger.IsHandling`: `return sl.Level.ShouldHandling(level)`. -/
def SugaredLogger.IsHandling (sl : SugaredLogger) (level : Slog.Level) : Bool :=
  ShouldHandling sl.Level level

/-! ## The logger and the heap -/

/-- What the embedding does not determine from the sources: the values of the level
constants, the name `New()` gives a logger, the initial `EnableColor` of a new
`TextFormatter`, and the answer of the external `color.SupportColor()`. -/
structure Ambient where
  levels : LevelValues
  loggerName : String
  textColor : Bool
  SupportColor : Bool
  deriving DecidableEq, Repr

/-- An exit handler, a zero-argument callback `func()`, by what is observable of one
run of it: it leaves its mark `tag` and then returns (`panics = none`) or panics with
a message. -/
structure ExitHandler where
  tag : Nat
  panics : Option String
  deriving DecidableEq, Repr

/-- The exit function `func(code int)` configured on a logger: `os.Exit` or a replacement. -/
inductive ExitFunc where
  | osExit
  | custom (id : Nat)
  deriving DecidableEq, Repr

/-- Modelled from the spec: the `Logger` struct, declared in a file not among the sources:
"owns handlers: ordered sequence of Handler, processors: ordered sequence of Processor,
exitHandlers: ordered sequence of callback, name, reportCaller: bool, exitFunc". -/
structure Logger where
  name : String
  handlers : List HandlerRef
  processors : List Nat
  exitHandlers : List ExitHandler
  ReportCaller : Bool
  ExitFunc : ExitFunc
  deriving DecidableEq, Repr

/-- The objects allocated so far: loggers and sugared loggers by address (the first
binding of an address is the current one) and the next free address. -/
structure Heap where
  loggers : List (Ptr × Logger)
  sugareds : List (Ptr × SugaredLogger)
  next : Ptr
  deriving DecidableEq, Repr

/-- The `Logger` stored at an address. -/
def Heap.logger? (h : Heap) (p : Ptr) : Option Logger :=
  h.loggers.lookup p

/-- The `SugaredLogger` stored at an address. -/
def Heap.sugared? (h : Heap) (p : Ptr) : Option SugaredLogger :=
  h.sugareds.lookup p

/-- Assignment through a `*Logger`: apply `f` to the logger stored at `p`. -/
def Heap.updateLogger (h : Heap) (p : Ptr) (f : Logger → Logger) : Heap :=
  match h.logger? p with
  | some l => { h with loggers := (p, f l) :: h.loggers }
  | none => h

/-- Assignment through a `*SugaredLogger`: apply `f` to the sugared logger stored at `p`. -/
def Heap.updateSugared (h : Heap) (p : Ptr) (f : SugaredLogger → SugaredLogger) : Heap :=
  match h.sugared? p with
  | some sl => { h with sugareds := (p, f sl) :: h.sugareds }
  | none => h

/-- Modelled from the spec: `New()`, not among the sources: a logger with no handlers, no
processors, no exit handlers, caller reporting off ("reportCaller disabled by default")
and the default exit function ("default: process termination"), allocated at a fresh
address. -/
def New (a : Ambient) (h : Heap) : Heap × Ptr :=
  let l : Logger :=
    { name := a.loggerName, handlers := [], processors := [], exitHandlers := [],
      ReportCaller := false, ExitFunc := .osExit }
  ({ h with loggers := (h.next, l) :: h.loggers, next := h.next + 1 }, h.next)

/-- Modelled from the spec: `NewTextFormatter()`, not among the sources: a text formatter. -/
def NewTextFormatter (a : Ambient) : Formatter :=
  .TextFormatter a.textColor

/-- Modelled from the spec: `Logger.AddHandler`, not among the sources: "insertion order =
dispatch order, duplicates allowed". -/
def Logger.AddHandler (l : Logger) (h : HandlerRef) : Logger :=
  { l with handlers := l.handlers ++ [h] }

/-- Modelled from the spec: `Logger.SetName`, not among the sources. -/
def Logger.SetName (l : Logger) (name : String) : Logger :=
  { l with name := name }

/-- Embeds `NewSugaredLogger(output, level)`: allocate the embedded logger with `New()`, allocate
the sugared logger, then `sl.AddHandler(sl)` registers the new object itself with its
own embedded logger. Returns the new heap and the address `sl`. -/
def NewSugaredLogger (a : Ambient) (output : Output) (level : Level) (h : Heap) : Heap × Ptr :=
  let (h1, q) := New a h
  let sl : SugaredLogger :=
    { Level := level, Output := output, Logger := q, Formatter := NewTextFormatter a }
  let p := h1.next
  let h2 : Heap := { h1 with sugareds := (p, sl) :: h1.sugareds, next := p + 1 }
  (h2.updateLogger q (fun l => l.AddHandler (.sugared p)), p)

/-- The callback `NewStdLogger` passes to `Configure`: `sl.SetName("stdLogger")`,
`sl.ReportCaller = true`, and `EnableColor = color.SupportColor()` on the text formatter
(the type assertion `sl.Formatter.(*TextFormatter)` leaves any other formatter alone here;
the formatter of a new sugared logger is always a text formatter). -/
def configureStd (a : Ambient) (h : Heap) (p : Ptr) : Heap :=
  match h.sugared? p with
  | none => h
  | some sl =>
    let h1 := h.updateLogger sl.Logger (fun l => l.SetName "stdLogger")
    let h2 := h1.updateLogger sl.Logger (fun l => { l with ReportCaller := true })
    h2.updateSugared p (fun s =>
      match s.Formatter with
      | .TextFormatter _ => { s with Formatter := .TextFormatter a.SupportColor }
      | _ => s)

/-- Embeds `NewStdLogger()`: `NewSugaredLogger(os.Stdout, DebugLevel).Configure(...)`; `Configure`
calls the callback on `sl` and returns `sl`. -/
def NewStdLogger (a : Ambient) (h : Heap) : Heap × Ptr :=
  let (h1, p) := NewSugaredLogger a .Stdout a.levels.DebugLevel h
  (configureStd a h1 p, p)

/-- The package state: the heap and the package variable `std`. -/
structure Global where
  heap : Heap
  std : Ptr
  deriving DecidableEq, Repr

/-- Embeds `Std()`: `return std`. -/
def Std (g : Global) : Ptr :=
  g.std

/-- The sugared logger `std` points to. -/
def Global.stdSugared? (g : Global) : Option SugaredLogger :=
  g.heap.sugared? g.std

/-- The `Logger` embedded in `std`. -/
def Global.stdLogger? (g : Global) : Option Logger :=
  (g.stdSugared?).bind fun sl => g.heap.logger? sl.Logger

/-! ## The exit-handler chain -/

/-- What an observer of the process sees of an exit: which callbacks ran, the flush of all
handlers, and the call of the exit function with its code. -/
inductive Event where
  | ran (tag : Nat)
  | flushAll
  | exitFunc (f : ExitFunc) (code : Int)
  deriving DecidableEq, Repr

/-- The observable process state: the events so far and the text written to the error
stream. -/
structure Process where
  trace : List Event
  stderr : String
  deriving DecidableEq, Repr

/-- How a call ends: it returns, or a panic leaves it with a message. -/
inductive Outcome where
  | returned (p : Process)
  | panicked (msg : String) (p : Process)
  deriving DecidableEq, Repr

/-- Sequencing of calls: a panic skips what follows and propagates. -/
def Outcome.andThen (o : Outcome) (k : Process → Outcome) : Outcome :=
  match o with
  | .returned p => k p
  | .panicked m p => .panicked m p

/-- The process state an outcome leaves. -/
def Outcome.process : Outcome → Process
  | .returned p => p
  | .panicked _ p => p

/-- One call of an exit handler: it leaves its mark, then returns or panics. -/
def ExitHandler.call (h : ExitHandler) (p : Process) : Outcome :=
  let p1 : Process := { p with trace := p.trace ++ [Event.ran h.tag] }
  match h.panics with
  | none => .returned p1
  | some m => .panicked m p1

/-- Modelled from the spec: the panic isolation around one exit handler, not among the
sources: "a panicking handler is caught, logged to the error stream as
`Run exit handler error: <message>`, and execution continues to the next handler"; the
line ends with a newline ("writes `Run exit handler error: <msg>\n`"). -/
def runIsolated (h : ExitHandler) (p : Process) : Outcome :=
  match h.call p with
  | .returned p1 => .returned p1
  | .panicked m p1 =>
    .returned { p1 with stderr := p1.stderr ++ ("Run exit handler error: " ++ m ++ "\n") }

/-- Modelled from the spec: running the chain, not among the sources: the handlers in
"the chain's current order", "each wrapped in panic isolation". -/
def runExitHandlers : List ExitHandler → Process → Outcome
  | [], p => .returned p
  | h :: hs, p => (runIsolated h p).andThen (runExitHandlers hs)

/-- Modelled from the spec: `Logger.RegisterExitHandler`, not among the sources:
"`RegisterExitHandler` appends (runs last)". -/
def Logger.RegisterExitHandler (l : Logger) (h : ExitHandler) : Logger :=
  { l with exitHandlers := l.exitHandlers ++ [h] }

/-- Modelled from the spec: `Logger.PrependExitHandler`, not among the sources:
"`PrependExitHandler` inserts at the front (runs first)". -/
def Logger.PrependExitHandler (l : Logger) (h : ExitHandler) : Logger :=
  { l with exitHandlers := h :: l.exitHandlers }

/-- Modelled from the spec: `Logger.ExitHandlers`, not among the sources: the chain. -/
def Logger.ExitHandlers (l : Logger) : List ExitHandler :=
  l.exitHandlers

/-- Modelled from the spec: `Logger.ResetExitHandlers`, not among the sources: discards
the exit handlers. -/
def Logger.ResetExitHandlers (l : Logger) : Logger :=
  { l with exitHandlers := [] }

/-- Modelled from the spec: `Logger.Exit`, not among the sources: "After the full chain
runs, `FlushAll` is invoked (flush every Handler), then the configured `exitFunc(code)`
is called". -/
def Logger.Exit (l : Logger) (code : Int) (p : Process) : Outcome :=
  (runExitHandlers l.exitHandlers p).andThen fun p1 =>
    (Outcome.returned { p1 with trace := p1.trace ++ [Event.flushAll] }).andThen fun p2 =>
      .returned { p2 with trace := p2.trace ++ [Event.exitFunc l.ExitFunc code] }

/-- One registration call on the chain. -/
inductive ChainOp where
  | register (h : ExitHandler)
  | prepend (h : ExitHandler)
  deriving DecidableEq, Repr

/-- The effect of one registration call on a logger. -/
def ChainOp.apply (l : Logger) : ChainOp → Logger
  | .register h => l.RegisterExitHandler h
  | .prepend h => l.PrependExitHandler h

/-- The handlers given to `RegisterExitHandler` in a sequence of calls, in call order. -/
def registered : List ChainOp → List ExitHandler
  | [] => []
  | .register h :: ops => h :: registered ops
  | .prepend _ :: ops => registered ops

/-- The handlers given to `PrependExitHandler` in a sequence of calls, in call order. -/
def prepended : List ChainOp → List ExitHandler
  | [] => []
  | .register _ :: ops => prepended ops
  | .prepend h :: ops => h :: prepended ops

/-- The lines the error stream receives for a chain: one per panicking handler, in chain
order. -/
def panicLines : List ExitHandler → String
  | [] => ""
  | h :: hs =>
    (match h.panics with
      | none => ""
      | some m => "Run exit handler error: " ++ m ++ "\n") ++ panicLines hs

/-! ## Package-level functions on the std logger -/

/-- Assignment through the `*Logger` embedded in `std`. -/
def Global.updateStdLogger (g : Global) (f : Logger → Logger) : Global :=
  match g.stdSugared? with
  | some sl => { g with heap := g.heap.updateLogger sl.Logger f }
  | none => g

/-- Modelled from the spec: the package function `RegisterExitHandler`, not among the
sources; like the package functions of `slog.go` it acts on `std`. -/
def RegisterExitHandler (g : Global) (h : ExitHandler) : Global :=
  g.updateStdLogger fun l => l.RegisterExitHandler h

/-- Modelled from the spec: the package function `PrependExitHandler`, not among the
sources; like the package functions of `slog.go` it acts on `std`. -/
def PrependExitHandler (g : Global) (h : ExitHandler) : Global :=
  g.updateStdLogger fun l => l.PrependExitHandler h

/-- Modelled from the spec: the package function `ExitHandlers`, not among the sources:
the chain that `Exit` runs. -/
def ExitHandlers (g : Global) : List ExitHandler :=
  match g.stdLogger? with
  | some l => l.ExitHandlers
  | none => []

/-- Modelled from the spec: the package function `ResetExitHandlers(applyToStd)`, not among
the sources: "discards all ... exit-handlers"; with `applyToStd` those of `std`. -/
def ResetExitHandlers (applyToStd : Bool) (g : Global) : Global :=
  if applyToStd then g.updateStdLogger Logger.ResetExitHandlers else g

/-- Embeds `Exit(code)`: `std.Exit(code)`. A `std` that points nowhere is a nil dereference. -/
def Exit (g : Global) (code : Int) (p : Process) : Outcome :=
  match g.stdLogger? with
  | some l => l.Exit code p
  | none => .panicked "invalid memory address or nil pointer dereference" p

/-- Embeds `SetExitFunc(fn)`: `std.ExitFunc = fn`. -/
def SetExitFunc (g : Global) (fn : ExitFunc) : Global :=
  g.updateStdLogger fun l => { l with ExitFunc := fn }

/-- Embeds `AddHandler(h)`: `std.AddHandler(h)`. -/
def AddHandler (g : Global) (h : HandlerRef) : Global :=
  g.updateStdLogger fun l => l.AddHandler h

/-- Embeds `Reset()`: `ResetExitHandlers(true)`, then `std = NewStdLogger()`. -/
def Reset (a : Ambient) (g : Global) : Global :=
  let g1 := ResetExitHandlers true g
  let (h, p) := NewStdLogger a g1.heap
  { heap := h, std := p }

/-- The package state at start-up: `var std = NewStdLogger()` on the empty heap. -/
def initial (a : Ambient) : Global :=
  let (h, p) := NewStdLogger a { loggers := [], sugareds := [], next := 1 }
  { heap := h, std := p }

/-- The effect of one registration call through the package functions. -/
def ChainOp.applyStd (g : Global) : ChainOp → Global
  | .register h => RegisterExitHandler g h
  | .prepend h => PrependExitHandler g h

/-! ## Sinks and the buffered writer of the Go library -/

/-- An `io.Writer` that a handler wraps, the sink: the bytes it has received, and how it
answers a `Write(p)` given what it has received so far: how many bytes of `p` it takes
and the error it returns. -/
structure Sink where
  received : Bytes
  respond : Bytes → Bytes → Nat × Option GoError

/-- The answer of a sink that takes every write whole. -/
def reliable : Bytes → Bytes → Nat × Option GoError :=
  fun _ p => (p.length, none)

/-- The call `Write(p)` on a sink: it takes the first `n` bytes of `p` (at most all of them) and
returns `n` and its error. -/
def Sink.Write (s : Sink) (p : Bytes) : Sink × Nat × Option GoError :=
  let n := min (s.respond s.received p).1 p.length
  ({ s with received := s.received ++ p.take n }, n, (s.respond s.received p).2)

/-- The struct `bufio.Writer`: `buf` is the filled part `b.buf[0:b.n]`, `size` is `len(b.buf)`, `err`
the sticky error and `wr` the underlying writer. -/
structure Writer where
  buf : Bytes
  size : Nat
  err : Option GoError
  wr : Sink

/-- Embeds `bufio.NewWriterSize(w, size)`: a non-positive size becomes the default 4096. (The
shortcut for a `w` that is itself a large enough `bufio.Writer` does not arise: a sink is
not one.) -/
def NewWriterSize (w : Sink) (size : Int) : Writer :=
  { buf := [], size := if size ≤ 0 then 4096 else size.toNat, err := none, wr := w }

/-- Embeds `bufio.NewWriter(w)`: `NewWriterSize(w, 4096)`. -/
def NewWriter (w : Sink) : Writer :=
  NewWriterSize w 4096

/-- Embeds `b.Available()`: `len(b.buf) - b.n`. -/
def Writer.Available (b : Writer) : Nat :=
  b.size - b.buf.length

/-- Embeds `b.Buffered()`: `b.n`. -/
def Writer.Buffered (b : Writer) : Nat :=
  b.buf.length

/-- Embeds `bufio.Writer.Flush`: return the sticky error if there is one; nothing to do on an
empty buffer; otherwise write the buffer to the underlying writer, turn a short write
without error into `io.ErrShortWrite`, on an error keep the unwritten rest and make the
error sticky, on success empty the buffer. -/
def Writer.Flush (b : Writer) : Writer × Option GoError :=
  match b.err with
  | some e => (b, some e)
  | none =>
    if b.buf.length = 0 then (b, none)
    else
      let r := b.wr.Write b.buf
      let err : Option GoError :=
        if r.2.1 < b.buf.length ∧ r.2.2 = none then some "short write" else r.2.2
      match err with
      | some e => ({ b with buf := b.buf.drop r.2.1, err := some e, wr := r.1 }, some e)
      | none => ({ b with buf := [], wr := r.1 }, none)

/-- The loop of `bufio.Writer.Write`: `for len(p) > b.Available() && b.err == nil`; with an
empty buffer a large write goes straight to the underlying writer, otherwise the buffer is
filled up and flushed. Returns the writer, the rest of `p` and the count `nn`; `none`
when the iterations allowed by the first argument do not end the loop. -/
def Writer.writeLoop : Nat → Writer → Bytes → Nat → Option (Writer × Bytes × Nat)
  | 0, b, p, nn =>
    if p.length > b.Available ∧ b.err = none then none else some (b, p, nn)
  | fuel + 1, b, p, nn =>
    if p.length > b.Available ∧ b.err = none then
      if b.Buffered = 0 then
        let r := b.wr.Write p
        Writer.writeLoop fuel { b with wr := r.1, err := r.2.2 } (p.drop r.2.1) (nn + r.2.1)
      else
        let n := min b.Available p.length
        let b1 : Writer := { b with buf := b.buf ++ p.take n }
        Writer.writeLoop fuel b1.Flush.1 (p.drop n) (nn + n)
    else some (b, p, nn)

/-- Embeds `bufio.Writer.Write(p)`: run the loop, then return the sticky error if there is one,
else copy the rest of `p` into the buffer. Every iteration but the first takes at least
one byte of `p` unless the underlying writer takes none without an error, in which case
the Go loop does not end: `len(p) + 1` iterations are allowed, and `none` is that case. -/
def Writer.Write (b : Writer) (p : Bytes) : Option (Writer × Nat × Option GoError) :=
  match Writer.writeLoop (p.length + 1) b p 0 with
  | none => none
  | some (b1, p1, nn) =>
    match b1.err with
    | some e => some (b1, nn, some e)
    | none =>
      let n := min b1.Available p1.length
      some ({ b1 with buf := b1.buf ++ p1.take n }, nn + n, none)

/-! ## The buffering decorators of package `handler` -/

/-- Modelled from the spec: the `Record` struct, declared in a file not among the sources,
with the fields "level", "channel" and "message"; the code here only hands a record to a
formatter. -/
structure Record where
  Level : Level
  Channel : String
  Message : String
  deriving DecidableEq, Repr

/-- A call a decorator makes on the handler it wraps. -/
inductive Call where
  | Flush
  | Close
  deriving DecidableEq, Repr

/-- The handler a decorator wraps, an interface value, by what the decorators use of it:
`Formatter().Format`, the results of its `Flush()` and `Close()`, and the record of the
calls it has received. Its `Writer()` is the sink handed to the constructors below; the
wrapped handler's own `Flush` and `Close` are taken not to write to that sink. -/
structure Wrapped where
  Format : Record → Except GoError Bytes
  flushErr : Option GoError
  closeErr : Option GoError
  calls : List Call

/-- The call `Flush()` on the wrapped handler. -/
def Wrapped.Flush (h : Wrapped) : Wrapped × Option GoError :=
  ({ h with calls := h.calls ++ [Call.Flush] }, h.flushErr)

/-- The call `Close()` on the wrapped handler. -/
def Wrapped.Close (h : Wrapped) : Wrapped × Option GoError :=
  ({ h with calls := h.calls ++ [Call.Close] }, h.closeErr)

/-- The struct `bufferWrapper`; the embedded `lockWrapper` is a mutex and has no part in a
sequential run. -/
structure bufferWrapper where
  buffer : Writer
  handler : Wrapped

/-- Embeds `BufferWrapper(handler, buffSize)`, with `writer` for `handler.Writer()`. -/
def BufferWrapper (handler : Wrapped) (writer : Sink) (buffSize : Int) : bufferWrapper :=
  { handler := handler, buffer := NewWriterSize writer buffSize }

/-- Embeds `bufferWrapper.Flush`: flush the buffer and return its error if there is one, else
return the wrapped handler's `Flush()`. -/
def bufferWrapper.Flush (w : bufferWrapper) : bufferWrapper × Option GoError :=
  match w.buffer.Flush with
  | (b, some e) => ({ w with buffer := b }, some e)
  | (b, none) => ({ buffer := b, handler := w.handler.Flush.1 }, w.handler.Flush.2)

/-- Embeds `bufferWrapper.Close`: `Flush()` and return its error if there is one, else return the
wrapped handler's `Close()`. -/
def bufferWrapper.Close (w : bufferWrapper) : bufferWrapper × Option GoError :=
  match w.Flush with
  | (w1, some e) => (w1, some e)
  | (w1, none) => ({ w1 with handler := w1.handler.Close.1 }, w1.handler.Close.2)

/-- Embeds `bufferWrapper.Handle`: format the record and return the formatter's error if there is
one, else write the bytes to the buffer and return the error of that write. `none` when
the write does not return. -/
def bufferWrapper.Handle (w : bufferWrapper) (record : Record) :
    Option (bufferWrapper × Option GoError) :=
  match w.handler.Format record with
  | .error e => some (w, some e)
  | .ok bts =>
    match w.buffer.Write bts with
    | none => none
    | some (b, _, err) => some ({ w with buffer := b }, err)

/-- The embedded `BaseHandler` of `BufferedHandler`, declared in a file not among the
sources, by the one thing used of it: `Formatter().Format`. -/
structure BaseHandler where
  Format : Record → Except GoError Bytes

/-- The constant `defaultFlushInterval`. -/
def defaultFlushInterval : Int := 1000

/-- The result of an `int` operation: the value wrapped to 64 bits, two's complement. -/
def wrapInt (x : Int) : Int :=
  (x + 2 ^ 63) % 2 ^ 64 - 2 ^ 63

/-- The struct `BufferedHandler`. -/
structure BufferedHandler where
  BaseHandler : BaseHandler
  number : Int
  buffer : Writer
  handler : Wrapped
  FlushInterval : Int

/-- Embeds `NewBufferedHandler(handler)`, with `writer` for `handler.Writer()` and `base` for the
zero value of the embedded `BaseHandler`. -/
def NewBufferedHandler (base : BaseHandler) (handler : Wrapped) (writer : Sink) :
    BufferedHandler :=
  { BaseHandler := base, number := 0, buffer := NewWriter writer, handler := handler,
    FlushInterval := defaultFlushInterval }

/-- Embeds `BufferedHandler.Flush`: `return h.buffer.Flush()`. -/
def BufferedHandler.Flush (h : BufferedHandler) : BufferedHandler × Option GoError :=
  ({ h with buffer := h.buffer.Flush.1 }, h.buffer.Flush.2)

/-- Embeds `BufferedHandler.Handle`: format the record and return the formatter's error if there
is one; else `h.number++`, write the bytes to the buffer, and if `h.number >=
h.FlushInterval` return `h.Flush()`, else the error of the write. `none` when the write
does not return. -/
def BufferedHandler.Handle (h : BufferedHandler) (record : Record) :
    Option (BufferedHandler × Option GoError) :=
  match h.BaseHandler.Format record with
  | .error e => some (h, some e)
  | .ok bts =>
    match h.buffer.Write bts with
    | none => none
    | some (b, _, err) =>
      let h1 : BufferedHandler := { h with number := wrapInt (h.number + 1), buffer := b }
      if h1.number ≥ h1.FlushInterval then some h1.Flush else some (h1, err)

/-- The bytes a formatter produces for a sequence of records, in order; a record it fails
on contributes nothing. -/
def formatted (format : Record → Except GoError Bytes) : List Record → Bytes
  | [] => []
  | r :: rs =>
    (match format r with
      | .ok bts => bts
      | .error _ => []) ++ formatted format rs

/-- The number of records of a sequence that a formatter formats without error. -/
def countFormatted (format : Record → Except GoError Bytes) : List Record → Nat
  | [] => 0
  | r :: rs =>
    (match format r with
      | .ok _ => 1
      | .error _ => 0) + countFormatted format rs

/-- What each `Handle` call of a run must return when nothing but the formatter fails:
the formatter's error for a record it fails on, else nil. -/
def formatErrors (format : Record → Except GoError Bytes) : List Record → List (Option GoError)
  | [] => []
  | r :: rs =>
    (match format r with
      | .ok _ => none
      | .error e => some e) :: formatErrors format rs

/-- A run of `Handle` calls on a `bufferWrapper`, one per record and nothing in between:
the final state and what each call returned. -/
def bufferWrapper.handleAll :
    bufferWrapper → List Record → Option (bufferWrapper × List (Option GoError))
  | w, [] => some (w, [])
  | w, r :: rs =>
    match w.Handle r with
    | none => none
    | some (w1, e) =>
      match bufferWrapper.handleAll w1 rs with
      | none => none
      | some (w2, es) => some (w2, e :: es)

/-- A run of `Handle` calls on a `BufferedHandler`, one per record and nothing in between:
the final state and what each call returned. -/
def BufferedHandler.handleAll :
    BufferedHandler → List Record → Option (BufferedHandler × List (Option GoError))
  | h, [] => some (h, [])
  | h, r :: rs =>
    match h.Handle r with
    | none => none
    | some (h1, e) =>
      match BufferedHandler.handleAll h1 rs with
      | none => none
      | some (h2, es) => some (h2, e :: es)

/-- A buffered writer in working order over a sink that takes every write whole: no sticky
error, and a buffer of positive capacity filled to at most that capacity. -/
def Writer.Healthy (b : Writer) : Prop :=
  b.err = none ∧ b.wr.respond = reliable ∧ b.buf.length ≤ b.size ∧ 0 < b.size

/-- A formatter for instantiating statements: the code points of the message as bytes; an
empty message is an error. -/
def plainFormat (r : Record) : Except GoError Bytes :=
  if r.Message.length = 0 then .error "empty message"
  else .ok (r.Message.data.map fun c => c.toNat.toUInt8)

/-- A wrapped handler whose `Flush` and `Close` succeed and that has received no call. -/
def quietHandler : Wrapped :=
  { Format := plainFormat, flushErr := none, closeErr := none, calls := [] }

/-- A sink that has received nothing and takes every write whole. -/
def emptySink : Sink :=
  { received := [], respond := reliable }

/-- A sink that has received nothing and fails every write. -/
def brokenSink : Sink :=
  { received := [], respond := fun _ _ => (0, some "disk full") }

/-- Three records for instantiating statements. -/
def sampleRecords : List Record :=
  [⟨600, "application", "ab"⟩, ⟨400, "application", "cde"⟩, ⟨300, "application", "f"⟩]

/-- One environment, for instantiating the parametric statements. -/
def ambient0 : Ambient :=
  { levels := hundreds, loggerName := "logger", textColor := false, SupportColor := false }

/-- The package state after registering three exit handlers on the initial state: the
handler 1 returns, the handler 2 panics with `test error`, the handler 3 returns. -/
def panicChainState : Global :=
  RegisterExitHandler
    (RegisterExitHandler (RegisterExitHandler (initial ambient0) ⟨1, none⟩)
      ⟨2, some "test error"⟩)
    ⟨3, none⟩

/-! ## Flushing the handlers of a sugared logger -/

/-- The handlers registered with loggers that are not sugared loggers, by address: what
`Flush()` and `Close()` of each return, and the record of the calls they have received. -/
structure Handlers where
  flushErr : Ptr → Option GoError
  closeErr : Ptr → Option GoError
  log : List (Ptr × Call)

/-- Modelled from the spec: `Logger.VisitAll(fn)`, not among the sources: calls `fn` on the
handlers in "insertion order". Whether a non-nil result of `fn` ends the visit is not
specified; `stop` says whether it does. -/
def visitAll (stop : Bool) (fn : HandlerRef → Handlers → Handlers × Option GoError) :
    List HandlerRef → Handlers → Handlers
  | [], s => s
  | h :: hs, s =>
    if stop && (fn h s).2.isSome then (fn h s).1 else visitAll stop fn hs (fn h s).1

/-- The callback of `SugaredLogger.FlushAll`: unless the handler is a `*SugaredLogger`,
`_ = handler.Flush()`; `return nil`. -/
def flushVisitor (handler : HandlerRef) (s : Handlers) : Handlers × Option GoError :=
  match handler with
  | .sugared _ => (s, none)
  | .other p => ({ s with log := s.log ++ [(p, Call.Flush)] }, none)

/-- The callback of `SugaredLogger.Close`: unless the handler is a `*SugaredLogger`,
`_ = handler.Close()`; `return nil`. -/
def closeVisitor (handler : HandlerRef) (s : Handlers) : Handlers × Option GoError :=
  match handler with
  | .sugared _ => (s, none)
  | .other p => ({ s with log := s.log ++ [(p, Call.Close)] }, none)

/-- Embeds `SugaredLogger.FlushAll`: `sl.Logger.VisitAll(...)`, then `return nil`. `none` is the
nil dereference of an `sl.Logger` that points nowhere. -/
def SugaredLogger.FlushAll (stop : Bool) (h : Heap) (sl : SugaredLogger) (s : Handlers) :
    Option (Handlers × Option GoError) :=
  match h.logger? sl.Logger with
  | none => none
  | some l => some (visitAll stop flushVisitor l.handlers s, none)

/-- Embeds `SugaredLogger.Flush`: `return sl.FlushAll()`. -/
def SugaredLogger.Flush (stop : Bool) (h : Heap) (sl : SugaredLogger) (s : Handlers) :
    Option (Handlers × Option GoError) :=
  sl.FlushAll stop h s

/-- Embeds `SugaredLogger.Close`: `sl.Logger.VisitAll(...)`, then `return nil`. -/
def SugaredLogger.Close (stop : Bool) (h : Heap) (sl : SugaredLogger) (s : Handlers) :
    Option (Handlers × Option GoError) :=
  match h.logger? sl.Logger with
  | none => none
  | some l => some (visitAll stop closeVisitor l.handlers s, none)

/-- The addresses of the handlers of a list that are not sugared loggers, in order. -/
def otherHandlers : List HandlerRef → List Ptr
  | [] => []
  | .sugared _ :: hs => otherHandlers hs
  | .other p :: hs => p :: otherHandlers hs

/-- Two handlers that are not sugared loggers, at addresses 10 and 11: `Flush` of the first
fails, the other succeeds; neither has received a call. -/
def twoHandlers : Handlers :=
  { flushErr := fun p => if p = 10 then some "boom" else none,
    closeErr := fun _ => none,
    log := [] }

/-- A heap with one sugared logger at address 2 whose embedded logger at address 1 has
three handlers: the sugared logger itself and the handlers at 10 and 11. -/
def threeHandlerHeap : Heap :=
  ((NewSugaredLogger ambient0 .Stdout 300 { loggers := [], sugareds := [], next := 1 }).1
    ).updateLogger 1 fun l => (l.AddHandler (.other 10)).AddHandler (.other 11)

/-! ## Handlers whose Flush and Close call back into a sugared logger -/

/-- What `Flush()` and `Close()` of a registered handler that is not a `*SugaredLogger` do:
they return on their own (`plain`), or the handler is a struct that embeds a
`*SugaredLogger`, as `logTest` of the library's tests does, and its `Flush` and `Close`
are the promoted methods of that sugared logger (`embeds`). -/
inductive HandlerKind where
  | plain
  | embeds (sl : Ptr)
  deriving DecidableEq, Repr

/-- Modelled from the spec: `Logger.VisitAll(fn)`, not among the sources, for a callback
that need not return: calls `fn` on the handlers in "insertion order"; `none` when a
call of `fn` does not return. Whether a non-nil result of `fn` ends the visit is not
specified; `stop` says whether it does. -/
def visitNested (stop : Bool)
    (fn : HandlerRef → Handlers → Option (Handlers × Option GoError)) :
    List HandlerRef → Handlers → Option Handlers
  | [], s => some s
  | x :: xs, s =>
    match fn x s with
    | none => none
    | some (s1, e) => if stop && e.isSome then some s1 else visitNested stop fn xs s1

/-- The callback of `SugaredLogger.FlushAll` (`call` is `Flush`) and of
`SugaredLogger.Close` (`call` is `Close`), with the call it makes carried out: unless the
handler is a `*SugaredLogger`, `_ = handler.Flush()` (`_ = handler.Close()`), which for a
handler that embeds the sugared logger at `q` runs `enter q`; `return nil`. -/
def nestedVisitor (call : Call) (kind : Ptr → HandlerKind)
    (enter : Ptr → Handlers → Option (Handlers × Option GoError))
    (x : HandlerRef) (t : Handlers) : Option (Handlers × Option GoError) :=
  match x with
  | .sugared _ => some (t, none)
  | .other p =>
    match kind p with
    | .plain => some ({ t with log := t.log ++ [(p, call)] }, none)
    | .embeds q =>
      match enter q { t with log := t.log ++ [(p, call)] } with
      | none => none
      | some (t2, _) => some (t2, none)

/-- Embeds `SugaredLogger.FlushAll` (`call` is `Flush`; `SugaredLogger.Flush` only calls
it) and `SugaredLogger.Close` (`call` is `Close`) with the calls on the handlers carried
out: `sl.Logger.VisitAll(...)`, then `return nil`. The first argument bounds the depth
of calls of these functions inside one another; `none` when the call does not return
within that depth, or dereferences a pointer that points nowhere. -/
def SugaredLogger.callAll (call : Call) (stop : Bool) (h : Heap) (kind : Ptr → HandlerKind) :
    Nat → SugaredLogger → Handlers → Option (Handlers × Option GoError)
  | 0, _, _ => none
  | depth + 1, sl, s =>
    match h.logger? sl.Logger with
    | none => none
    | some l =>
      match visitNested stop
          (nestedVisitor call kind fun q t =>
            match h.sugared? q with
            | none => none
            | some sq => SugaredLogger.callAll call stop h kind depth sq t)
          l.handlers s with
      | none => none
      | some s1 => some (s1, none)

/-- The handler at address 10 is a struct that embeds the sugared logger at address 2; every
other handler returns on its own. -/
def selfWrapKind : Ptr → HandlerKind :=
  fun p => if p = 10 then .embeds 2 else .plain

/-! ## Level names -/

/-- Case folding for the comparison of level names: every ASCII capital becomes the small
letter. -/
def lower (s : String) : String :=
  ⟨s.data.map Char.toLower⟩

/-- Modelled from the spec: `LevelName(l)`, not among the sources: "total function, returns
`UNKNOWN` for unmapped values". The map `LevelNames` from canonical levels to their names
is not among the sources either and is a parameter: the list of its entries. -/
def LevelName (names : List (Level × String)) (l : Level) : String :=
  match names.lookup l with
  | some n => n
  | none => "UNKNOWN"

/-- Modelled from the spec: `Name2Level(name)`, not among the sources: "case-insensitive;
recognizes canonical names and the documented short aliases; fails with
`UnknownLevelName` otherwise; empty string is a permitted alias for Info"; the aliases
are `warn` for Warn and `err` for Error. A failure returns the zero level with the
error. -/
def Name2Level (c : LevelValues) (names : List (Level × String)) (ln : String) :
    Level × Option GoError :=
  match names.find? (fun e => lower e.2 == lower ln) with
  | some e => (e.1, none)
  | none =>
    if lower ln = "warn" then (c.WarnLevel, none)
    else if lower ln = "err" then (c.ErrorLevel, none)
    else if lower ln = "" then (c.InfoLevel, none)
    else (0, some "UnknownLevelName")

/-- One map of level names over the values of `hundreds`, for instantiating the parametric
statements. -/
def sampleNames : List (Level × String) :=
  [(100, "PANIC"), (200, "FATAL"), (300, "ERROR"), (400, "WARNING"), (500, "NOTICE"),
   (600, "INFO"), (700, "DEBUG"), (800, "TRACE")]

/-! ## Handling a record -/

/-- An `io.Writer` together with the record of the `Write` calls made on it: the argument
of each call, in call order. -/
structure Recorder where
  sink : Sink
  writes : List Bytes

/-- The call `Write(p)` on a recorded writer: the call is recorded and answered by the
underlying sink. -/
def Recorder.Write (r : Recorder) (p : Bytes) : Recorder × Nat × Option GoError :=
  ({ sink := (r.sink.Write p).1, writes := r.writes ++ [p] }, (r.sink.Write p).2)

/-- Embeds `SugaredLogger.Handle`: format the record with `sl.Formatter` and return the
formatter's error if there is one, else write the bytes to `sl.Output` and return the
error of that write. The method `Format` of the formatters is not among the sources and
is the parameter `format`; `out` is the writer `sl.Output` refers to. -/
def SugaredLogger.Handle (format : Slog.Formatter → Record → Except GoError Bytes)
    (sl : SugaredLogger) (record : Record) (out : Recorder) : Recorder × Option GoError :=
  match format sl.Formatter record with
  | .error e => (out, some e)
  | .ok bts => ((out.Write bts).1, (out.Write bts).2.2)

/-- The struct `SimpleFileHandler`, by what `Handle` uses of its embedded structs, which
are declared in files not among the sources: the open `file` of `fileWrapper`, and the
formatter and level of `LevelWithFormatter`; the embedded `lockWrapper` is a mutex and has
no part in a sequential run. -/
structure SimpleFileHandler where
  file : Recorder
  Format : Record → Except GoError Bytes
  Level : Level

/-- Embeds `SimpleFileHandler.Handle`: format the record and return the formatter's error
if there is one, else write the bytes to the file and return the error of that write. -/
def SimpleFileHandler.Handle (h : SimpleFileHandler) (r : Record) :
    SimpleFileHandler × Option GoError :=
  match h.Format r with
  | .error e => (h, some e)
  | .ok bts => ({ h with file := (h.file.Write bts).1 }, (h.file.Write bts).2.2)

/-- The contract of `io.Writer`: a `Write` that returns no error has taken all the bytes. -/
def Sink.Conforming (s : Sink) : Prop :=
  ∀ r p, (s.respond r p).2 = none → p.length ≤ (s.respond r p).1

/-! ## Resetting a sugared logger, and its own dispatch -/

/-- Embeds `SugaredLogger.Reset`: `*sl = *NewSugaredLogger(os.Stdout, ErrorLevel)`: a new
sugared logger is allocated and registered with its own new embedded logger, and the
struct it points to is copied over the struct `sl` points to. -/
def SugaredLogger.Reset (a : Ambient) (h : Heap) (sl : Ptr) : Heap :=
  let (h1, tmp) := NewSugaredLogger a .Stdout a.levels.ErrorLevel h
  match h1.sugared? tmp with
  | some v => h1.updateSugared sl (fun _ => v)
  | none => h1

/-- The handler list of the logger embedded in the sugared logger at `sl`. -/
def ownHandlers (h : Heap) (sl : Ptr) : List HandlerRef :=
  match (h.sugared? sl).bind (fun s => h.logger? s.Logger) with
  | some l => l.handlers
  | none => []

/-- Modelled from the spec: the dispatch of `Logger.Log`, not among the sources, on the
logger embedded in the sugared logger at `sl`: "For each registered Handler, in
registration order: if `Handler.IsHandling(level)` is true, call
`Handler.Handle(record)`". Given here for the handlers that are sugared loggers, by what
`SugaredLogger.IsHandling` and `SugaredLogger.Handle` read from the handler: for each
one that accepts the level, the formatter and the output the record is written with. -/
def dispatchTargets (h : Heap) (sl : Ptr) (level : Level) : List (Formatter × Output) :=
  (ownHandlers h sl).filterMap fun x =>
    match x with
    | .sugared p =>
      (h.sugared? p).bind fun s =>
        if s.IsHandling level then some (s.Formatter, s.Output) else none
    | .other _ => none

/-- The assignments `sl.Level = level`, `sl.Formatter = f` and `sl.Output = out`. -/
def assignFields (h : Heap) (sl : Ptr) (level : Level) (f : Formatter) (out : Output) : Heap :=
  h.updateSugared sl fun s => { s with Level := level, Formatter := f, Output := out }

/-- The heap after `sl := NewSugaredLogger(w, InfoLevel)` on the empty heap, with `w` the
writer 1 and the level values of `hundreds`: `sl` is the address 2. -/
def freshHeap : Heap :=
  (NewSugaredLogger ambient0 (.writer 1) 600 { loggers := [], sugareds := [], next := 1 }).1

/-! ## Theorems -/

/-- C1: for every sugared logger and every level `v`, `sl.IsHandling v` equals
`ShouldHandling sl.Level v`, is true exactly when `v` is numerically at most the
threshold `sl.Level`, and is false for every numerically larger (less severe) level;
with the constants ordered Error < Warn < Info, a logger with threshold Warn accepts
Warn and Error and rejects Info. -/
theorem SugaredLogger.isHandling_iff_le (sl : SugaredLogger) (v : Slog.Level) :
    sl.IsHandling v = ShouldHandling sl.Level v ∧
    (sl.IsHandling v = true ↔ v ≤ sl.Level) ∧
    (sl.Level < v → sl.IsHandling v = false) ∧
    (∀ c : LevelValues, c.ErrorLevel < c.WarnLevel → c.WarnLevel < c.InfoLevel →
      sl.Level = c.WarnLevel →
        sl.IsHandling c.WarnLevel = true ∧ sl.IsHandling c.ErrorLevel = true ∧
        sl.IsHandling c.InfoLevel = false) := by
  refine ⟨rfl, ?_, ?_, ?_⟩
  · simp [SugaredLogger.IsHandling, ShouldHandling]
  · intro h
    simp [SugaredLogger.IsHandling, ShouldHandling, h]
  · intro c h1 h2 h3
    have e1 : c.ErrorLevel ≤ c.WarnLevel := Nat.le_of_lt h1
    have e2 : ¬ c.InfoLevel ≤ c.WarnLevel := Nat.not_le_of_lt h2
    simp [SugaredLogger.IsHandling, ShouldHandling, h3, e1, e2]

/-- Witness for C1: the logger with threshold Warn (400 under `hundreds`) asked about
Error (300); the ordering hypotheses hold for `hundreds`. -/
theorem SugaredLogger.isHandling_iff_le_witness :
    (SugaredLogger.IsHandling ⟨0, .JSONFormatter, .Stdout, 400⟩ 300 = true ↔ 300 ≤ 400) ∧
    SugaredLogger.IsHandling ⟨0, .JSONFormatter, .Stdout, 400⟩ hundreds.WarnLevel = true ∧
    SugaredLogger.IsHandling ⟨0, .JSONFormatter, .Stdout, 400⟩ hundreds.ErrorLevel = true ∧
    SugaredLogger.IsHandling ⟨0, .JSONFormatter, .Stdout, 400⟩ hundreds.InfoLevel = false :=
  ⟨(SugaredLogger.isHandling_iff_le ⟨0, .JSONFormatter, .Stdout, 400⟩ 300).2.1,
   (SugaredLogger.isHandling_iff_le ⟨0, .JSONFormatter, .Stdout, 400⟩ 300).2.2.2
      hundreds (by decide) (by decide) rfl⟩

/-! ### The exit-handler chain -/

/-- Running a chain never panics: it leaves the marks of all its handlers in chain order
and one error line per panicking handler. -/
theorem runExitHandlers_eq (hs : List ExitHandler) (p : Process) :
    runExitHandlers hs p =
      .returned { trace := p.trace ++ hs.map (fun h => Event.ran h.tag),
                  stderr := p.stderr ++ panicLines hs } := by
  induction hs generalizing p with
  | nil => simp [runExitHandlers, panicLines]
  | cons h hs ih =>
    cases hp : h.panics with
    | none =>
      simp [runExitHandlers, runIsolated, ExitHandler.call, Outcome.andThen, panicLines, hp, ih]
    | some m =>
      simp [runExitHandlers, runIsolated, ExitHandler.call, Outcome.andThen, panicLines, hp, ih,
        String.append_assoc]

/-- What `Logger.Exit` does, in full. -/
theorem Logger.exit_eq (l : Logger) (code : Int) (p : Process) :
    l.Exit code p =
      .returned { trace := p.trace ++ l.exitHandlers.map (fun h => Event.ran h.tag) ++
                    [Event.flushAll, Event.exitFunc l.ExitFunc code],
                  stderr := p.stderr ++ panicLines l.exitHandlers } := by
  simp [Logger.Exit, runExitHandlers_eq, Outcome.andThen]

/-- The error lines of a concatenated chain. -/
theorem panicLines_append (xs ys : List ExitHandler) :
    panicLines (xs ++ ys) = panicLines xs ++ panicLines ys := by
  induction xs with
  | nil => simp [panicLines]
  | cons h hs ih => simp [panicLines, ih, String.append_assoc]

/-- A chain without panicking handlers writes nothing to the error stream. -/
theorem panicLines_of_no_panic (hs : List ExitHandler) (h : ∀ x ∈ hs, x.panics = none) :
    panicLines hs = "" := by
  induction hs with
  | nil => rfl
  | cons x xs ih =>
    have hx : x.panics = none := h x (List.mem_cons_self _ _)
    have hxs : panicLines xs = "" := ih (fun y hy => h y (List.mem_cons_of_mem _ hy))
    simp [panicLines, hx, hxs]

/-- A sequence of registration calls on a logger changes only the chain: the prepended
handlers, latest first, then the old chain, then the registered handlers in call order. -/
theorem foldl_apply_eq (ops : List ChainOp) (l : Logger) :
    ops.foldl ChainOp.apply l =
      { l with exitHandlers := (prepended ops).reverse ++ l.exitHandlers ++ registered ops } := by
  induction ops generalizing l with
  | nil => simp [prepended, registered]
  | cons op ops ih =>
    cases op with
    | register h =>
      simp [List.foldl_cons, ChainOp.apply, Logger.RegisterExitHandler, ih, prepended, registered]
    | prepend h =>
      simp [List.foldl_cons, ChainOp.apply, Logger.PrependExitHandler, ih, prepended, registered]

/-! ### The std logger -/

/-- What `NewStdLogger` allocates on any heap: the embedded logger at the first free
address and the sugared logger right after it, with the default content. -/
theorem NewStdLogger_eq (a : Ambient) (h : Heap) :
    (NewStdLogger a h).2 = h.next + 1 ∧
    (NewStdLogger a h).1.sugared? (h.next + 1) =
      some { Logger := h.next, Formatter := .TextFormatter a.SupportColor,
             Output := .Stdout, Level := a.levels.DebugLevel } ∧
    (NewStdLogger a h).1.logger? h.next =
      some { name := "stdLogger", handlers := [.sugared (h.next + 1)], processors := [],
             exitHandlers := [], ReportCaller := true, ExitFunc := .osExit } := by
  simp [NewStdLogger, NewSugaredLogger, New, configureStd, Heap.updateLogger,
    Heap.updateSugared, Heap.logger?, Heap.sugared?, List.lookup, NewTextFormatter,
    Logger.AddHandler, Logger.SetName]

/-- Assignment through a pointer to an allocated logger. -/
theorem Heap.updateLogger_of_some (h : Heap) (q : Ptr) (l : Logger) (f : Logger → Logger)
    (hl : h.logger? q = some l) :
    h.updateLogger q f = { h with loggers := (q, f l) :: h.loggers } := by
  simp [Heap.updateLogger, hl]

/-- Assigning through the logger embedded in `std` changes that logger and neither `std`
nor the next free address. -/
theorem Global.updateStdLogger_spec (g : Global) (l : Logger) (f : Logger → Logger)
    (hl : g.stdLogger? = some l) :
    (g.updateStdLogger f).stdLogger? = some (f l) ∧
    (g.updateStdLogger f).std = g.std ∧
    (g.updateStdLogger f).heap.next = g.heap.next := by
  unfold Global.stdLogger? at hl
  cases hs : g.stdSugared? with
  | none => simp [hs] at hl
  | some sl =>
    simp only [hs, Option.some_bind] at hl
    have hs2 : g.heap.sugared? g.std = some sl := hs
    have hu := Heap.updateLogger_of_some g.heap sl.Logger l f hl
    simp only [Heap.sugared?] at hs2
    simp [Global.updateStdLogger, hs, hu, Global.stdLogger?,
      Global.stdSugared?, Heap.sugared?, Heap.logger?, List.lookup, hs2]

/-- A sequence of registration calls through the package functions acts on the logger
embedded in `std` as the same sequence of calls on that logger. -/
theorem foldl_applyStd_stdLogger (ops : List ChainOp) (g : Global) (l : Logger)
    (hl : g.stdLogger? = some l) :
    (ops.foldl ChainOp.applyStd g).stdLogger? = some (ops.foldl ChainOp.apply l) := by
  induction ops generalizing g l with
  | nil => simpa using hl
  | cons op ops ih =>
    cases op with
    | register h =>
      exact ih _ _ (Global.updateStdLogger_spec g l _ hl).1
    | prepend h =>
      exact ih _ _ (Global.updateStdLogger_spec g l _ hl).1

/-- C2: for every sequence `ops` of `RegisterExitHandler` and `PrependExitHandler` calls on
the std logger, the resulting chain is the prepended handlers (latest first), then the
chain there was before, then the registered handlers in call order; and `Exit(code)`
returns after leaving, in this order, the mark of every handler of that chain once, the
flush of all handlers, and one call of the configured exit function with `code`. -/
theorem exit_runs_chain_in_order (g : Global) (l : Logger) (hl : g.stdLogger? = some l)
    (ops : List ChainOp) (code : Int) (p : Process) :
    ExitHandlers (ops.foldl ChainOp.applyStd g) =
      (prepended ops).reverse ++ ExitHandlers g ++ registered ops ∧
    (∃ q, Exit (ops.foldl ChainOp.applyStd g) code p = .returned q) ∧
    (Exit (ops.foldl ChainOp.applyStd g) code p).process.trace =
      p.trace ++ (ExitHandlers (ops.foldl ChainOp.applyStd g)).map (fun h => Event.ran h.tag) ++
        [Event.flushAll, Event.exitFunc l.ExitFunc code] := by
  have h1 := foldl_applyStd_stdLogger ops g l hl
  rw [foldl_apply_eq] at h1
  simp [ExitHandlers, Exit, h1, hl, Logger.ExitHandlers, Logger.exit_eq, Outcome.process]

/-- Witness for C2: the calls of the library's test on the initial package state: register
handlers 1 and 2, prepend handler 3, exit with code 23. -/
theorem exit_runs_chain_in_order_witness :
    (initial ambient0).stdLogger? =
      some { name := "stdLogger", handlers := [.sugared 2], processors := [],
             exitHandlers := [], ReportCaller := true, ExitFunc := .osExit } ∧
    (Exit ([ChainOp.register ⟨1, none⟩, ChainOp.register ⟨2, none⟩,
        ChainOp.prepend ⟨3, none⟩].foldl ChainOp.applyStd (initial ambient0)) 23
        ⟨[], ""⟩).process.trace =
      [] ++ (ExitHandlers ([ChainOp.register ⟨1, none⟩, ChainOp.register ⟨2, none⟩,
        ChainOp.prepend ⟨3, none⟩].foldl ChainOp.applyStd (initial ambient0))).map
          (fun h => Event.ran h.tag) ++ [Event.flushAll, Event.exitFunc .osExit 23] :=
  ⟨by decide,
   (exit_runs_chain_in_order (initial ambient0)
      { name := "stdLogger", handlers := [.sugared 2], processors := [],
        exitHandlers := [], ReportCaller := true, ExitFunc := .osExit } (by decide)
      [ChainOp.register ⟨1, none⟩, ChainOp.register ⟨2, none⟩, ChainOp.prepend ⟨3, none⟩]
      23 ⟨[], ""⟩).2.2⟩

/-- The library's test of the chain order, evaluated: register 1, register 2, prepend 3,
exit 23 runs 3, 1, 2 and then the exit function. -/
theorem exit_order_test :
    (Exit ([ChainOp.register ⟨1, none⟩, ChainOp.register ⟨2, none⟩,
        ChainOp.prepend ⟨3, none⟩].foldl ChainOp.applyStd (initial ambient0)) 23
        ⟨[], ""⟩) =
      .returned ⟨[Event.ran 3, Event.ran 1, Event.ran 2, Event.flushAll,
        Event.exitFunc .osExit 23], ""⟩ := by
  decide

/-- C3: when a handler `h` of the chain (after `pre`, before `post`) panics with message
`m`, `Exit(code)` on the logger, and the package function `Exit` when the logger is the
one embedded in `std`, returns (the panic does not reach the caller); the error stream
receives the line `Run exit handler error: m` with a newline for `h`, between the lines
of the handlers before and after it (exactly that one line when no other handler
panics); every handler after `h` still runs, and the exit function is still called. -/
theorem exit_isolates_panic (g : Global) (l : Logger) (hl : g.stdLogger? = some l)
    (pre post : List ExitHandler) (h : ExitHandler) (m : String)
    (hc : l.exitHandlers = pre ++ h :: post) (hm : h.panics = some m)
    (code : Int) (p : Process) :
    Exit g code p = l.Exit code p ∧
    l.Exit code p =
      .returned
        { trace := p.trace ++ pre.map (fun x => Event.ran x.tag) ++ [Event.ran h.tag] ++
            post.map (fun x => Event.ran x.tag) ++
            [Event.flushAll, Event.exitFunc l.ExitFunc code],
          stderr := p.stderr ++ panicLines pre ++ ("Run exit handler error: " ++ m ++ "\n") ++
            panicLines post } ∧
    ((∀ x ∈ pre ++ post, x.panics = none) →
      (l.Exit code p).process.stderr = p.stderr ++ ("Run exit handler error: " ++ m ++ "\n")) := by
  have e : l.Exit code p =
      .returned
        { trace := p.trace ++ pre.map (fun x => Event.ran x.tag) ++ [Event.ran h.tag] ++
            post.map (fun x => Event.ran x.tag) ++
            [Event.flushAll, Event.exitFunc l.ExitFunc code],
          stderr := p.stderr ++ panicLines pre ++ ("Run exit handler error: " ++ m ++ "\n") ++
            panicLines post } := by
    rw [Logger.exit_eq, hc, panicLines_append]
    simp [panicLines, hm, String.append_assoc]
  refine ⟨by simp [Exit, hl], e, ?_⟩
  intro hno
  have h1 : panicLines pre = "" :=
    panicLines_of_no_panic pre (fun x hx => hno x (List.mem_append_left _ hx))
  have h2 : panicLines post = "" :=
    panicLines_of_no_panic post (fun x hx => hno x (List.mem_append_right _ hx))
  rw [e]
  simp [Outcome.process, h1, h2]

/-- Witness for C3: a chain of three handlers of which the second panics with
`test error`: the first and the third leave their marks, the third after the panic, and
the error stream receives the one line. -/
theorem exit_isolates_panic_witness :
    Exit panicChainState 23 ⟨[], ""⟩ =
      .returned
        { trace := [] ++ ([⟨1, none⟩] : List ExitHandler).map (fun x => Event.ran x.tag) ++
            [Event.ran 2] ++ ([⟨3, none⟩] : List ExitHandler).map (fun x => Event.ran x.tag) ++
            [Event.flushAll, Event.exitFunc .osExit 23],
          stderr := "" ++ panicLines [⟨1, none⟩] ++
            ("Run exit handler error: " ++ "test error" ++ "\n") ++ panicLines [⟨3, none⟩] } :=
  ((exit_isolates_panic panicChainState
      { name := "stdLogger", handlers := [.sugared 2], processors := [],
        exitHandlers := [⟨1, none⟩, ⟨2, some "test error"⟩, ⟨3, none⟩],
        ReportCaller := true, ExitFunc := .osExit }
      (by decide) [⟨1, none⟩] [⟨3, none⟩] ⟨2, some "test error"⟩ "test error" rfl rfl 23
      ⟨[], ""⟩).1).trans
   (exit_isolates_panic panicChainState
      { name := "stdLogger", handlers := [.sugared 2], processors := [],
        exitHandlers := [⟨1, none⟩, ⟨2, some "test error"⟩, ⟨3, none⟩],
        ReportCaller := true, ExitFunc := .osExit }
      (by decide) [⟨1, none⟩] [⟨3, none⟩] ⟨2, some "test error"⟩ "test error" rfl rfl 23
      ⟨[], ""⟩).2.1

/-- The library's test of a panicking exit handler, evaluated: the error stream holds
exactly the one line. And the chain of the witness, evaluated: the handler after the
panicking one has run, and the exit function is called last. -/
theorem exit_panic_test :
    (Exit (RegisterExitHandler (initial ambient0) ⟨1, some "test error"⟩) 23
      ⟨[], ""⟩).process.stderr = "Run exit handler error: test error\n" ∧
    Exit panicChainState 23 ⟨[], ""⟩ =
      .returned ⟨[Event.ran 1, Event.ran 2, Event.ran 3, Event.flushAll,
        Event.exitFunc .osExit 23], "Run exit handler error: test error\n"⟩ ∧
    Exit (RegisterExitHandler (RegisterExitHandler (initial ambient0)
        ⟨1, some "first"⟩) ⟨2, some "second"⟩) 23 ⟨[], ""⟩ =
      .returned ⟨[Event.ran 1, Event.ran 2, Event.flushAll, Event.exitFunc .osExit 23],
        "Run exit handler error: first\nRun exit handler error: second\n"⟩ := by
  decide

/-- Assigning through the logger embedded in `std` never moves the next free address. -/
theorem Global.updateStdLogger_next (g : Global) (f : Logger → Logger) :
    (g.updateStdLogger f).heap.next = g.heap.next := by
  unfold Global.updateStdLogger Heap.updateLogger
  split
  · split <;> rfl
  · rfl

/-- C9: for every package state `g`, after `Reset()` the exit-handler list is empty and
`std` is what `NewStdLogger()` returns: a newly allocated sugared logger (at the address
that was free after the embedded logger's) writing to `os.Stdout` with threshold Debug
and a text formatter, whose newly allocated embedded logger is named `stdLogger`, reports
callers, has no processors and no exit handlers, and has as its only handler the new
sugared logger itself. -/
theorem reset_gives_fresh_std (a : Ambient) (g : Global) :
    ExitHandlers (Reset a g) = [] ∧
    ((Reset a g).heap, Std (Reset a g)) = NewStdLogger a (ResetExitHandlers true g).heap ∧
    Std (Reset a g) = g.heap.next + 1 ∧
    (Reset a g).stdSugared? =
      some { Logger := g.heap.next, Formatter := .TextFormatter a.SupportColor,
             Output := .Stdout, Level := a.levels.DebugLevel } ∧
    (Reset a g).stdLogger? =
      some { name := "stdLogger", handlers := [.sugared (Std (Reset a g))], processors := [],
             exitHandlers := [], ReportCaller := true, ExitFunc := .osExit } := by
  have hn : (ResetExitHandlers true g).heap.next = g.heap.next := by
    simp [ResetExitHandlers, Global.updateStdLogger_next]
  obtain ⟨h1, h2, h3⟩ := NewStdLogger_eq a (ResetExitHandlers true g).heap
  rw [hn] at h1 h2 h3
  have hstd : Std (Reset a g) = g.heap.next + 1 := by simpa [Reset, Std] using h1
  have hsug : (Reset a g).stdSugared? =
      some { Logger := g.heap.next, Formatter := .TextFormatter a.SupportColor,
             Output := .Stdout, Level := a.levels.DebugLevel } := by
    simpa [Reset, Global.stdSugared?, h1] using h2
  have hlog : (Reset a g).stdLogger? =
      some { name := "stdLogger", handlers := [.sugared (Std (Reset a g))], processors := [],
             exitHandlers := [], ReportCaller := true, ExitFunc := .osExit } := by
    rw [hstd]
    simp only [Global.stdLogger?, hsug, Option.some_bind]
    simpa [Reset] using h3
  refine ⟨?_, rfl, hstd, hsug, hlog⟩
  simp [ExitHandlers, hlog, Logger.ExitHandlers]

/-! ### The buffered writer -/

/-- No wrap-around for a value in the range of a non-negative `int`. -/
theorem wrapInt_of_range (x : Int) (h0 : 0 ≤ x) (h1 : x < 2 ^ 63) : wrapInt x = x := by
  unfold wrapInt
  omega

/-- The loop of `Write` is not entered when its condition fails. -/
theorem Writer.writeLoop_exit (fuel : Nat) (b : Writer) (p : Bytes) (nn : Nat)
    (h : ¬ (p.length > b.Available ∧ b.err = none)) :
    Writer.writeLoop fuel b p nn = some (b, p, nn) := by
  cases fuel <;> simp only [Writer.writeLoop, h, if_false]

/-- A write that fits into the free part of the buffer only extends the buffer: nothing
reaches the underlying writer. -/
theorem Writer.write_fits (b : Writer) (p : Bytes) (herr : b.err = none)
    (hfit : p.length ≤ b.Available) :
    b.Write p = some ({ b with buf := b.buf ++ p }, p.length, none) := by
  have hx : ¬ (p.length > b.Available ∧ b.err = none) := by
    intro h
    exact absurd h.1 (Nat.not_lt.mpr hfit)
  simp [Writer.Write, Writer.writeLoop_exit _ b p 0 hx, herr, Nat.min_eq_right hfit]

/-- A run of `Handle` calls on a `bufferWrapper` whose formatted bytes fit into the free
part of the buffer: every call returns what the formatter returned, the bytes are in the
buffer, and the underlying writer is as it was. -/
theorem bufferWrapper.handleAll_fits (rs : List Record) (w : bufferWrapper)
    (herr : w.buffer.err = none)
    (hfit : w.buffer.buf.length + (formatted w.handler.Format rs).length ≤ w.buffer.size) :
    w.handleAll rs =
      some ({ w with buffer := { w.buffer with
                buf := w.buffer.buf ++ formatted w.handler.Format rs } },
            formatErrors w.handler.Format rs) := by
  induction rs generalizing w with
  | nil => simp [bufferWrapper.handleAll, formatted, formatErrors]
  | cons r rs ih =>
    cases hf : w.handler.Format r with
    | error e =>
      have hfit2 : w.buffer.buf.length + (formatted w.handler.Format rs).length
          ≤ w.buffer.size := by
        simpa [formatted, hf] using hfit
      simp [bufferWrapper.handleAll, bufferWrapper.Handle, hf, ih w herr hfit2, formatted,
        formatErrors]
    | ok bts =>
      have hlen : w.buffer.buf.length + (bts.length + (formatted w.handler.Format rs).length)
          ≤ w.buffer.size := by
        simpa [formatted, hf] using hfit
      have h1 : bts.length ≤ w.buffer.Available := by
        unfold Writer.Available
        omega
      have hw := Writer.write_fits w.buffer bts herr h1
      have hih := ih { w with buffer := { w.buffer with buf := w.buffer.buf ++ bts } } herr
        (by simp only [List.length_append]; omega)
      simp only [bufferWrapper.handleAll, bufferWrapper.Handle, hf, hw, hih]
      simp [formatted, formatErrors, hf]

/-- A run of `Handle` calls on a `BufferedHandler` that keeps the counter below
`FlushInterval` and whose formatted bytes fit into the free part of the buffer: every call
returns what the formatter returned, the counter has counted the formatted records, the
bytes are in the buffer, and the underlying writer is as it was. -/
theorem BufferedHandler.handleAll_below_interval (rs : List Record) (h : BufferedHandler)
    (herr : h.buffer.err = none) (h0 : 0 ≤ h.number) (hk : h.FlushInterval < 2 ^ 63)
    (hcount : h.number + (countFormatted h.BaseHandler.Format rs : Int) < h.FlushInterval)
    (hfit : h.buffer.buf.length + (formatted h.BaseHandler.Format rs).length
      ≤ h.buffer.size) :
    h.handleAll rs =
      some ({ h with
              number := h.number + (countFormatted h.BaseHandler.Format rs : Int),
              buffer := { h.buffer with
                buf := h.buffer.buf ++ formatted h.BaseHandler.Format rs } },
            formatErrors h.BaseHandler.Format rs) := by
  induction rs generalizing h with
  | nil => simp [BufferedHandler.handleAll, formatted, formatErrors, countFormatted]
  | cons r rs ih =>
    cases hf : h.BaseHandler.Format r with
    | error e =>
      have hfit2 : h.buffer.buf.length + (formatted h.BaseHandler.Format rs).length
          ≤ h.buffer.size := by
        simpa [formatted, hf] using hfit
      have hcount2 : h.number + (countFormatted h.BaseHandler.Format rs : Int)
          < h.FlushInterval := by
        simpa [countFormatted, hf] using hcount
      simp [BufferedHandler.handleAll, BufferedHandler.Handle, hf, ih h herr h0 hk hcount2 hfit2,
        formatted, formatErrors, countFormatted]
    | ok bts =>
      have hlen : h.buffer.buf.length + (bts.length + (formatted h.BaseHandler.Format rs).length)
          ≤ h.buffer.size := by
        simpa [formatted, hf] using hfit
      have hcount2 : h.number + (1 + (countFormatted h.BaseHandler.Format rs : Int))
          < h.FlushInterval := by
        simpa [countFormatted, hf] using hcount
      have hc0 : (0 : Int) ≤ (countFormatted h.BaseHandler.Format rs : Int) :=
        Int.ofNat_nonneg _
      have h1 : bts.length ≤ h.buffer.Available := by
        unfold Writer.Available
        omega
      have hw := Writer.write_fits h.buffer bts herr h1
      have hwrap : wrapInt (h.number + 1) = h.number + 1 :=
        wrapInt_of_range _ (by omega) (by omega)
      have hlt : ¬ (h.number + 1 ≥ h.FlushInterval) := by omega
      have hih := ih { h with number := h.number + 1,
                              buffer := { h.buffer with buf := h.buffer.buf ++ bts } }
        herr (by show (0 : Int) ≤ h.number + 1; omega) hk
        (by show h.number + 1 + (countFormatted h.BaseHandler.Format rs : Int)
              < h.FlushInterval
            omega)
        (by simp only [List.length_append]; omega)
      simp only [BufferedHandler.handleAll, BufferedHandler.Handle, hf, hw, hwrap, hlt,
        if_false, hih]
      simp [formatted, formatErrors, countFormatted, hf]
      omega

/-- The formatted records of a sequence are not more than its records. -/
theorem countFormatted_le (format : Record → Except GoError Bytes) (rs : List Record) :
    countFormatted format rs ≤ rs.length := by
  induction rs with
  | nil => simp [countFormatted]
  | cons r rs ih =>
    cases hf : format r <;> simp [countFormatted, hf] <;> omega

/-- C4: a run of `Handle` calls with no `Flush` or `Close` in between, on a new
`bufferWrapper` (records `rs1`, fewer formatted bytes than the capacity of its buffer) and
on a new `BufferedHandler` with any `FlushInterval` (records `rs2`, fewer records than
`FlushInterval` and fewer formatted bytes than the capacity): every call returns, with
nil for each record the formatter formats, and the sink has received nothing: what it
holds is what it held before the run; the bytes are in the buffer. -/
theorem handle_below_threshold_sink_untouched (handler : Wrapped) (writer : Sink)
    (buffSize : Int) (base : BaseHandler) (interval : Int)
    (rs1 rs2 : List Record)
    (hbytes1 : (formatted handler.Format rs1).length
      < (BufferWrapper handler writer buffSize).buffer.size)
    (hint : interval < 2 ^ 63)
    (hcount2 : (rs2.length : Int) < interval)
    (hbytes2 : (formatted base.Format rs2).length
      < (NewBufferedHandler base handler writer).buffer.size) :
    (∃ w, (BufferWrapper handler writer buffSize).handleAll rs1 =
        some (w, formatErrors handler.Format rs1) ∧
      w.buffer.wr.received = writer.received ∧
      w.buffer.buf = formatted handler.Format rs1) ∧
    (∃ h, ({ NewBufferedHandler base handler writer with
              FlushInterval := interval } : BufferedHandler).handleAll rs2 =
        some (h, formatErrors base.Format rs2) ∧
      h.buffer.wr.received = writer.received ∧
      h.buffer.buf = formatted base.Format rs2) := by
  constructor
  · have := bufferWrapper.handleAll_fits rs1 (BufferWrapper handler writer buffSize) rfl
      (by
        have e : (BufferWrapper handler writer buffSize).buffer.buf = [] := rfl
        have e2 : (BufferWrapper handler writer buffSize).handler = handler := rfl
        rw [e, e2]
        simp only [List.length_nil]
        omega)
    exact ⟨_, this, rfl, by simp [BufferWrapper, NewWriterSize]⟩
  · have hc := countFormatted_le base.Format rs2
    have := BufferedHandler.handleAll_below_interval rs2
      ({ NewBufferedHandler base handler writer with FlushInterval := interval })
      rfl (by simp [NewBufferedHandler]) hint
      (by
        show (0 : Int) + (countFormatted base.Format rs2 : Int) < interval
        omega)
      (by
        show ([] : Bytes).length + (formatted base.Format rs2).length
          ≤ (NewBufferedHandler base handler writer).buffer.size
        simp only [List.length_nil]
        omega)
    exact ⟨_, this, rfl, by simp [NewBufferedHandler, NewWriter, NewWriterSize]⟩

/-- Witness for C4: three records of six bytes in all, on a `bufferWrapper` with a buffer of
16 bytes and on a `BufferedHandler` with `FlushInterval` 4. -/
theorem handle_below_threshold_sink_untouched_witness :
    (∃ w, (BufferWrapper quietHandler emptySink 16).handleAll sampleRecords =
        some (w, formatErrors quietHandler.Format sampleRecords) ∧
      w.buffer.wr.received = emptySink.received ∧
      w.buffer.buf = formatted quietHandler.Format sampleRecords) ∧
    (∃ h, ({ NewBufferedHandler ⟨plainFormat⟩ quietHandler emptySink with
              FlushInterval := 4 } : BufferedHandler).handleAll sampleRecords =
        some (h, formatErrors plainFormat sampleRecords) ∧
      h.buffer.wr.received = emptySink.received ∧
      h.buffer.buf = formatted plainFormat sampleRecords) :=
  handle_below_threshold_sink_untouched quietHandler emptySink 16 ⟨plainFormat⟩ 4
    sampleRecords sampleRecords (by decide) (by decide) (by decide) (by decide)

/-- The run of the witness, evaluated: six bytes in the buffer, none at the sink. -/
theorem handle_below_threshold_test :
    ((BufferWrapper quietHandler emptySink 16).handleAll sampleRecords).map
        (fun x => (x.1.buffer.wr.received, x.1.buffer.buf, x.2)) =
      some ([], [97, 98, 99, 100, 101, 102], [none, none, none]) := by
  decide

/-! ### The buffered writer over a sink that takes every write -/

/-- A write to a sink that takes every write whole. -/
theorem Sink.write_reliable (s : Sink) (p : Bytes) (h : s.respond = reliable) :
    s.Write p = ({ s with received := s.received ++ p }, p.length, none) := by
  simp [Sink.Write, h, reliable]

/-- Flushing a writer in working order moves the buffer to the sink. -/
theorem Writer.flush_healthy (b : Writer) (hb : b.Healthy) :
    b.Flush = ({ b with buf := [], wr := { b.wr with received := b.wr.received ++ b.buf } },
               none) := by
  obtain ⟨herr, hrel, -, -⟩ := hb
  cases b with
  | mk buf size err wr =>
    cases wr with
    | mk received respond =>
      simp only at herr hrel
      subst herr
      subst hrel
      cases buf with
      | nil => simp [Writer.Flush]
      | cons x xs => simp [Writer.Flush, Sink.Write, reliable]

/-- The loop of `Write` on an empty buffer, for a write larger than the buffer: the bytes
go straight to the sink. -/
theorem Writer.writeLoop_direct (fuel : Nat) (b : Writer) (p : Bytes) (nn : Nat)
    (herr : b.err = none) (hrel : b.wr.respond = reliable) (hbuf : b.buf = [])
    (hbig : p.length > b.Available) :
    Writer.writeLoop (fuel + 1) b p nn =
      some ({ b with wr := { b.wr with received := b.wr.received ++ p } }, [],
            nn + p.length) := by
  have hcond : p.length > b.Available ∧ b.err = none := ⟨hbig, herr⟩
  have hB : b.Buffered = 0 := by simp [Writer.Buffered, hbuf]
  simp only [Writer.writeLoop, hcond, and_self, if_true, hB, Sink.write_reliable b.wr p hrel,
    List.drop_length]
  rw [Writer.writeLoop_exit]
  · cases b
    simp_all

/-- A write to a writer in working order returns with all bytes taken and no error, leaves
the writer in working order, and what the sink has received followed by the buffer has
grown by exactly the written bytes. -/
theorem Writer.write_healthy (b : Writer) (p : Bytes) (hb : b.Healthy) :
    ∃ b1, b.Write p = some (b1, p.length, none) ∧ b1.Healthy ∧ b1.size = b.size ∧
      b1.wr.respond = b.wr.respond ∧
      b1.wr.received ++ b1.buf = b.wr.received ++ b.buf ++ p := by
  obtain ⟨buf, size, err, ⟨received, respond⟩⟩ := b
  obtain ⟨herr, hrel, hlen, hpos⟩ := hb
  simp only at herr hrel hlen hpos
  subst herr
  subst hrel
  by_cases hfit : p.length ≤ size - buf.length
  · refine ⟨⟨buf ++ p, size, none, ⟨received, reliable⟩⟩, Writer.write_fits _ p rfl hfit,
      ⟨rfl, rfl, ?_, hpos⟩, rfl, rfl, ?_⟩
    · simp only [List.length_append]
      omega
    · simp [List.append_assoc]
  · have hbig : p.length > size - buf.length := Nat.lt_of_not_le hfit
    by_cases hbuf : buf = []
    · subst hbuf
      have hloop := Writer.writeLoop_direct p.length
        ⟨[], size, none, ⟨received, reliable⟩⟩ p 0 rfl rfl rfl hbig
      refine ⟨⟨[], size, none, ⟨received ++ p, reliable⟩⟩, ?_,
        ⟨rfl, rfl, hlen, hpos⟩, rfl, rfl, ?_⟩
      · simp [Writer.Write, hloop]
      · simp
    · have hmin : min (size - buf.length) p.length = size - buf.length :=
        Nat.min_eq_left (Nat.le_of_lt hbig)
      have hB : ¬ buf.length = 0 := by
        simpa using hbuf
      have htake : (p.take (size - buf.length)).length = size - buf.length := by
        rw [List.length_take]
        exact hmin
      have hb1 : (⟨buf ++ p.take (size - buf.length), size, none,
          ⟨received, reliable⟩⟩ : Writer).Healthy :=
        ⟨rfl, rfl, by simp only [List.length_append, htake]; omega, hpos⟩
      have hflush := Writer.flush_healthy _ hb1
      dsimp only at hflush
      have hstep : Writer.writeLoop (p.length + 1)
            ⟨buf, size, none, ⟨received, reliable⟩⟩ p 0 =
          Writer.writeLoop p.length
            ⟨[], size, none, ⟨received ++ (buf ++ p.take (size - buf.length)), reliable⟩⟩
            (p.drop (size - buf.length)) (0 + (size - buf.length)) := by
        simp only [Writer.writeLoop, Writer.Available, Writer.Buffered, hbig, and_self,
          if_true, hB, if_false, hmin, hflush]
      have hsum : size - buf.length + (p.length - (size - buf.length)) = p.length := by
        omega
      by_cases hbig2 : (p.drop (size - buf.length)).length > size
      · obtain ⟨f, hf⟩ : ∃ f, p.length = f + 1 := ⟨p.length - 1, by omega⟩
        have hloop := Writer.writeLoop_direct f
          ⟨[], size, none, ⟨received ++ (buf ++ p.take (size - buf.length)), reliable⟩⟩
          (p.drop (size - buf.length)) (0 + (size - buf.length)) rfl rfl rfl
          (by simpa [Writer.Available] using hbig2)
        dsimp only at hloop
        have hstep2 : Writer.writeLoop (p.length + 1)
            ⟨buf, size, none, ⟨received, reliable⟩⟩ p 0 =
            some (⟨[], size, none,
              ⟨received ++ (buf ++ p.take (size - buf.length)) ++ p.drop (size - buf.length),
                reliable⟩⟩, [],
              0 + (size - buf.length) + (p.drop (size - buf.length)).length) := by
          rw [hstep, hf, hloop]
        refine ⟨⟨[], size, none,
              ⟨received ++ (buf ++ p.take (size - buf.length)) ++ p.drop (size - buf.length),
                reliable⟩⟩, ?_, ⟨rfl, rfl, ?_, hpos⟩, rfl, rfl, ?_⟩
        · simp only [Writer.Write, hstep2]
          simp only [List.length_drop, List.take_nil, List.append_nil, List.length_nil,
            Nat.min_zero, Nat.add_zero, Nat.zero_add, hsum]
        · simp
        · simp [List.append_assoc]
      · have hle : (p.drop (size - buf.length)).length ≤ size := Nat.le_of_not_lt hbig2
        have hx : ¬ ((p.drop (size - buf.length)).length >
            (⟨[], size, none, ⟨received ++ (buf ++ p.take (size - buf.length)),
              reliable⟩⟩ : Writer).Available ∧
            (⟨[], size, none, ⟨received ++ (buf ++ p.take (size - buf.length)),
              reliable⟩⟩ : Writer).err = none) := by
          intro h
          exact hbig2 (by simpa [Writer.Available] using h.1)
        rw [Writer.writeLoop_exit _ _ _ _ hx] at hstep
        refine ⟨⟨p.drop (size - buf.length), size, none,
            ⟨received ++ (buf ++ p.take (size - buf.length)), reliable⟩⟩,
          ?_, ⟨rfl, rfl, hle, hpos⟩, rfl, rfl, ?_⟩
        · have hm : min size (p.drop (size - buf.length)).length
              = (p.drop (size - buf.length)).length := Nat.min_eq_right hle
          simp only [Writer.Write, hstep, Writer.Available, List.length_nil, Nat.sub_zero, hm,
            List.take_length, List.nil_append, Nat.zero_add]
          simp only [List.length_drop, hsum]
        · simp [List.append_assoc]

/-! ### Runs of the decorators over a sink that takes every write -/

/-- A run of `Handle` calls on a `bufferWrapper` whose buffered writer is in working
order: every call returns what the formatter returned, the wrapped handler receives no
call, and what the sink has received followed by the buffer grows by exactly the formatted
bytes, in order. -/
theorem bufferWrapper.handleAll_healthy (rs : List Record) (w : bufferWrapper)
    (hb : w.buffer.Healthy) :
    ∃ w1, w.handleAll rs = some (w1, formatErrors w.handler.Format rs) ∧
      w1.buffer.Healthy ∧ w1.handler = w.handler ∧
      w1.buffer.wr.received ++ w1.buffer.buf =
        w.buffer.wr.received ++ w.buffer.buf ++ formatted w.handler.Format rs := by
  induction rs generalizing w with
  | nil => exact ⟨w, by simp [bufferWrapper.handleAll, formatErrors], hb, rfl,
      by simp [formatted]⟩
  | cons r rs ih =>
    cases hf : w.handler.Format r with
    | error e =>
      obtain ⟨w1, h1, h2, h3, h4⟩ := ih w hb
      refine ⟨w1, ?_, h2, h3, ?_⟩
      · simp [bufferWrapper.handleAll, bufferWrapper.Handle, hf, h1, formatErrors]
      · simpa [formatted, hf] using h4
    | ok bts =>
      obtain ⟨b1, hw, hb1, -, -, hrec⟩ := Writer.write_healthy w.buffer bts hb
      obtain ⟨w1, h1, h2, h3, h4⟩ := ih { w with buffer := b1 } hb1
      refine ⟨w1, ?_, h2, h3, ?_⟩
      · simp only [bufferWrapper.handleAll, bufferWrapper.Handle, hf, hw, h1]
        simp [formatErrors, hf]
      · rw [h4]
        simp only [formatted, hf]
        rw [hrec]
        simp [List.append_assoc]

/-- A run of `Handle` calls on a `BufferedHandler` whose buffered writer is in working
order, whose counter does not overflow, and whose buffer is empty if the counter has
already reached `FlushInterval`: every call returns what the formatter returned, the
counter counts the formatted records, what the sink has received followed by the buffer
grows by exactly the formatted bytes, and the buffer is empty once the counter has reached
`FlushInterval`. The wrapped handler receives no call. -/
theorem BufferedHandler.handleAll_counted (rs : List Record) (h : BufferedHandler)
    (hb : h.buffer.Healthy) (h0 : 0 ≤ h.number)
    (hmax : h.number + (countFormatted h.BaseHandler.Format rs : Int) < 2 ^ 63)
    (hempty : h.number ≥ h.FlushInterval → h.buffer.buf = []) :
    ∃ h1, h.handleAll rs = some (h1, formatErrors h.BaseHandler.Format rs) ∧
      h1.buffer.Healthy ∧ h1.handler = h.handler ∧
      h1.number = h.number + (countFormatted h.BaseHandler.Format rs : Int) ∧
      h1.FlushInterval = h.FlushInterval ∧
      h1.buffer.wr.received ++ h1.buffer.buf =
        h.buffer.wr.received ++ h.buffer.buf ++ formatted h.BaseHandler.Format rs ∧
      (h1.number ≥ h1.FlushInterval → h1.buffer.buf = []) := by
  induction rs generalizing h with
  | nil =>
    exact ⟨h, by simp [BufferedHandler.handleAll, formatErrors], hb, rfl,
      by simp [countFormatted], rfl, by simp [formatted], hempty⟩
  | cons r rs ih =>
    cases hf : h.BaseHandler.Format r with
    | error e =>
      have hmax2 : h.number + (countFormatted h.BaseHandler.Format rs : Int) < 2 ^ 63 := by
        simpa [countFormatted, hf] using hmax
      obtain ⟨h1, e1, e2, e3, e4, e5, e6, e7⟩ := ih h hb h0 hmax2 hempty
      refine ⟨h1, ?_, e2, e3, ?_, e5, ?_, e7⟩
      · simp [BufferedHandler.handleAll, BufferedHandler.Handle, hf, e1, formatErrors]
      · simpa [countFormatted, hf] using e4
      · simpa [formatted, hf] using e6
    | ok bts =>
      have hmax2 : h.number + (1 + (countFormatted h.BaseHandler.Format rs : Int)) < 2 ^ 63 := by
        simpa [countFormatted, hf] using hmax
      have hc0 : (0 : Int) ≤ (countFormatted h.BaseHandler.Format rs : Int) :=
        Int.ofNat_nonneg _
      have hwrap : wrapInt (h.number + 1) = h.number + 1 :=
        wrapInt_of_range _ (by omega) (by omega)
      obtain ⟨b1, hw, hb1, -, -, hrec⟩ := Writer.write_healthy h.buffer bts hb
      by_cases hge : h.number + 1 ≥ h.FlushInterval
      · have hfl := Writer.flush_healthy b1 hb1
        obtain ⟨h1, e1, e2, e3, e4, e5, e6, e7⟩ := ih
          { h with number := h.number + 1,
                   buffer := { b1 with buf := [], wr := { b1.wr with
                     received := b1.wr.received ++ b1.buf } } }
          ⟨hb1.1, hb1.2.1, Nat.zero_le _, hb1.2.2.2⟩
          (by show (0 : Int) ≤ h.number + 1; omega)
          (by show h.number + 1 + (countFormatted h.BaseHandler.Format rs : Int) < 2 ^ 63
              omega)
          (fun _ => rfl)
        refine ⟨h1, ?_, e2, e3, ?_, e5, ?_, e7⟩
        · simp only [BufferedHandler.handleAll, BufferedHandler.Handle, hf, hw, hwrap, hge,
            if_true, BufferedHandler.Flush, hfl, e1]
          simp [formatErrors, hf]
        · rw [e4]
          simp only [countFormatted, hf]
          push_cast
          omega
        · rw [e6]
          simp only [formatted, hf, List.append_nil]
          rw [hrec]
          simp [List.append_assoc]
      · obtain ⟨h1, e1, e2, e3, e4, e5, e6, e7⟩ := ih
          { h with number := h.number + 1, buffer := b1 } hb1
          (by show (0 : Int) ≤ h.number + 1; omega)
          (by show h.number + 1 + (countFormatted h.BaseHandler.Format rs : Int) < 2 ^ 63
              omega)
          (fun hh => absurd hh hge)
        refine ⟨h1, ?_, e2, e3, ?_, e5, ?_, e7⟩
        · simp only [BufferedHandler.handleAll, BufferedHandler.Handle, hf, hw, hwrap, hge,
            if_false, e1]
          simp [formatErrors, hf]
        · rw [e4]
          simp only [countFormatted, hf]
          push_cast
          omega
        · rw [e6]
          simp only [formatted, hf]
          rw [hrec]
          simp [List.append_assoc]

/-- A new buffered writer over a sink that takes every write is in working order. -/
theorem NewWriterSize_healthy (writer : Sink) (size : Int) (hrel : writer.respond = reliable) :
    (NewWriterSize writer size).Healthy := by
  refine ⟨rfl, hrel, Nat.zero_le _, ?_⟩
  show 0 < (if size ≤ 0 then 4096 else size.toNat)
  split <;> omega

/-- C5: over a sink that takes every write, after any run of `Handle` calls on a new
`bufferWrapper` (records `rs1`) or on a new `BufferedHandler` with any `FlushInterval`
(records `rs2`, fewer than 2^63 so that the `int` counter does not overflow): an explicit
`Flush` leaves the buffer empty and the sink with what it held before followed by exactly
the formatted bytes of all records of the run, in order; and for the `BufferedHandler`
the same holds right after the run, with no explicit `Flush`, whenever the number of
formatted records has reached `FlushInterval`. -/
theorem flush_delivers_all_records (handler : Wrapped) (writer : Sink) (buffSize : Int)
    (base : BaseHandler) (interval : Int) (rs1 rs2 : List Record)
    (hrel : writer.respond = reliable) (hlen : (rs2.length : Int) < 2 ^ 63) :
    (∃ w, (BufferWrapper handler writer buffSize).handleAll rs1 =
        some (w, formatErrors handler.Format rs1) ∧
      w.Flush.2 = handler.flushErr ∧
      w.Flush.1.buffer.wr.received = writer.received ++ formatted handler.Format rs1 ∧
      w.Flush.1.buffer.buf = []) ∧
    (∃ h, ({ NewBufferedHandler base handler writer with
              FlushInterval := interval } : BufferedHandler).handleAll rs2 =
        some (h, formatErrors base.Format rs2) ∧
      h.Flush.2 = none ∧
      h.Flush.1.buffer.wr.received = writer.received ++ formatted base.Format rs2 ∧
      h.Flush.1.buffer.buf = [] ∧
      (interval ≤ (countFormatted base.Format rs2 : Int) →
        h.buffer.wr.received = writer.received ++ formatted base.Format rs2 ∧
        h.buffer.buf = [])) := by
  constructor
  · obtain ⟨w, e1, e2, e3, e4⟩ := bufferWrapper.handleAll_healthy rs1
      (BufferWrapper handler writer buffSize) (NewWriterSize_healthy writer buffSize hrel)
    have hfl := Writer.flush_healthy w.buffer e2
    have e5 : w.buffer.wr.received ++ w.buffer.buf =
        writer.received ++ formatted handler.Format rs1 := by
      simpa [BufferWrapper, NewWriterSize] using e4
    have e6 : w.handler = handler := e3
    refine ⟨w, e1, ?_, ?_, ?_⟩
    · simp [bufferWrapper.Flush, hfl, Wrapped.Flush, e6]
    · simp [bufferWrapper.Flush, hfl, e5]
    · simp [bufferWrapper.Flush, hfl]
  · have hc := countFormatted_le base.Format rs2
    obtain ⟨h, e1, e2, e3, e4, e5, e6, e7⟩ := BufferedHandler.handleAll_counted rs2
      ({ NewBufferedHandler base handler writer with FlushInterval := interval })
      (NewWriterSize_healthy writer 4096 hrel) (by simp [NewBufferedHandler])
      (by
        show (0 : Int) + (countFormatted base.Format rs2 : Int) < 2 ^ 63
        omega)
      (fun _ => rfl)
    have hfl := Writer.flush_healthy h.buffer e2
    have e8 : h.buffer.wr.received ++ h.buffer.buf =
        writer.received ++ formatted base.Format rs2 := by
      simpa [NewBufferedHandler, NewWriter, NewWriterSize] using e6
    have e9 : h.number = (countFormatted base.Format rs2 : Int) := by
      simpa [NewBufferedHandler] using e4
    have e10 : h.FlushInterval = interval := e5
    refine ⟨h, e1, ?_, ?_, ?_, ?_⟩
    · simp [BufferedHandler.Flush, hfl]
    · simp [BufferedHandler.Flush, hfl, e8]
    · simp [BufferedHandler.Flush, hfl]
    · intro hreach
      have hbuf : h.buffer.buf = [] := e7 (by rw [e9, e10]; exact hreach)
      refine ⟨?_, hbuf⟩
      rw [← e8, hbuf, List.append_nil]

/-- Witness for C5: the three sample records (six bytes) on a `bufferWrapper` with a buffer
of four bytes, and on a `BufferedHandler` with `FlushInterval` 2. -/
theorem flush_delivers_all_records_witness :
    (∃ w, (BufferWrapper quietHandler emptySink 4).handleAll sampleRecords =
        some (w, formatErrors quietHandler.Format sampleRecords) ∧
      w.Flush.2 = quietHandler.flushErr ∧
      w.Flush.1.buffer.wr.received =
        emptySink.received ++ formatted quietHandler.Format sampleRecords ∧
      w.Flush.1.buffer.buf = []) ∧
    (∃ h, ({ NewBufferedHandler ⟨plainFormat⟩ quietHandler emptySink with
              FlushInterval := 2 } : BufferedHandler).handleAll sampleRecords =
        some (h, formatErrors plainFormat sampleRecords) ∧
      h.Flush.2 = none ∧
      h.Flush.1.buffer.wr.received = emptySink.received ++ formatted plainFormat sampleRecords ∧
      h.Flush.1.buffer.buf = [] ∧
      ((2 : Int) ≤ (countFormatted plainFormat sampleRecords : Int) →
        h.buffer.wr.received = emptySink.received ++ formatted plainFormat sampleRecords ∧
        h.buffer.buf = [])) :=
  flush_delivers_all_records quietHandler emptySink 4 ⟨plainFormat⟩ 2
    sampleRecords sampleRecords rfl (by decide)

/-- The runs of the witness, evaluated. With a buffer of four bytes the second record
fills the buffer and sends `abcd` to the sink; `Flush` sends the rest. With
`FlushInterval` 2 the second and the third call flush. -/
theorem flush_delivers_test :
    ((BufferWrapper quietHandler emptySink 4).handleAll sampleRecords).map
        (fun x => (x.1.buffer.wr.received, x.1.buffer.buf,
          x.1.Flush.1.buffer.wr.received, x.1.Flush.1.buffer.buf)) =
      some ([97, 98, 99, 100], [101, 102], [97, 98, 99, 100, 101, 102], []) ∧
    (({ NewBufferedHandler ⟨plainFormat⟩ quietHandler emptySink with
          FlushInterval := 2 } : BufferedHandler).handleAll (sampleRecords.take 1)).map
        (fun x => (x.1.buffer.wr.received, x.1.buffer.buf)) = some ([], [97, 98]) ∧
    (({ NewBufferedHandler ⟨plainFormat⟩ quietHandler emptySink with
          FlushInterval := 2 } : BufferedHandler).handleAll sampleRecords).map
        (fun x => (x.1.buffer.wr.received, x.1.buffer.buf)) =
      some ([97, 98, 99, 100, 101, 102], []) := by
  decide

/-! ### Flush and Close of the decorators -/

/-- Counterexample for C6. A `BufferedHandler` over a sink that takes every write, after
the three sample records: `Flush` returns nil and the sink has the six bytes, but the
wrapped handler has received no call. A `bufferWrapper` over a sink that fails every
write, after the same records: `Flush` returns the error of the drain, the bytes are
still in the buffer, and the wrapped handler has received no call. -/
theorem flush_without_wrapped_flush :
    ((NewBufferedHandler ⟨plainFormat⟩ quietHandler emptySink).handleAll sampleRecords).map
        (fun x => (x.1.Flush.2, x.1.Flush.1.buffer.wr.received, x.1.Flush.1.handler.calls)) =
      some (none, [97, 98, 99, 100, 101, 102], []) ∧
    ((BufferWrapper quietHandler brokenSink 16).handleAll sampleRecords).map
        (fun x => (x.1.Flush.2, x.1.Flush.1.buffer.wr.received, x.1.Flush.1.buffer.buf,
          x.1.Flush.1.handler.calls)) =
      some (some "disk full", [], [97, 98, 99, 100, 101, 102], []) := by
  decide

/-- C6, amended: `bufferWrapper.Flush` flushes its buffered writer; if that returns no
error it calls `Flush()` on the wrapped handler once and returns its result, and if it
returns an error `Flush` returns that error and makes no call on the wrapped handler.
`BufferedHandler.Flush` flushes its buffered writer and returns the result of that.
Flushing a buffered writer that is in working order over a sink that takes every write
leaves the buffer empty and the sink with what it held followed by the buffered bytes. -/
theorem flush_drains_buffer (w : bufferWrapper) (h : BufferedHandler) :
    w.Flush.1.buffer = w.buffer.Flush.1 ∧
    (w.buffer.Flush.2 = none →
      w.Flush.2 = w.handler.flushErr ∧
      w.Flush.1.handler.calls = w.handler.calls ++ [Call.Flush]) ∧
    (∀ e, w.buffer.Flush.2 = some e →
      w.Flush.2 = some e ∧ w.Flush.1.handler.calls = w.handler.calls) ∧
    h.Flush.1.buffer = h.buffer.Flush.1 ∧
    h.Flush.2 = h.buffer.Flush.2 ∧
    (∀ b : Writer, b.Healthy →
      b.Flush.2 = none ∧ b.Flush.1.buf = [] ∧
      b.Flush.1.wr.received = b.wr.received ++ b.buf) := by
  refine ⟨?_, ?_, ?_, rfl, rfl, ?_⟩
  · unfold bufferWrapper.Flush
    rcases hfl : w.buffer.Flush with ⟨b, _ | e⟩ <;> simp
  · intro hnone
    unfold bufferWrapper.Flush
    rcases hfl : w.buffer.Flush with ⟨b, _ | e⟩
    · simp [Wrapped.Flush]
    · simp [hfl] at hnone
  · intro e he
    unfold bufferWrapper.Flush
    rcases hfl : w.buffer.Flush with ⟨b, _ | e2⟩
    · simp [hfl] at he
    · simp only [hfl, Option.some.injEq] at he
      simp [he]
  · intro b hb
    simp [Writer.flush_healthy b hb]

/-- Witness for C6, amended: a `bufferWrapper` holding two bytes over a sink that takes
every write: the drain succeeds and the wrapped handler is flushed once. -/
theorem flush_drains_buffer_witness :
    (bufferWrapper.Flush ⟨⟨[1, 2], 16, none, emptySink⟩, quietHandler⟩).2
        = quietHandler.flushErr ∧
      (bufferWrapper.Flush ⟨⟨[1, 2], 16, none, emptySink⟩, quietHandler⟩).1.handler.calls
        = quietHandler.calls ++ [Call.Flush] :=
  (flush_drains_buffer ⟨⟨[1, 2], 16, none, emptySink⟩, quietHandler⟩
    (NewBufferedHandler ⟨plainFormat⟩ quietHandler emptySink)).2.1 (by decide)

/-- C8: `bufferWrapper.Close` first does what `Flush` does. If the drain of the buffer
fails, `Close` returns that error and the wrapped handler receives no call. If the drain
succeeds and the wrapped handler's `Flush` fails, `Close` returns that error and the
wrapped handler has received only the `Flush`. Otherwise the wrapped handler receives
`Flush` and then `Close`, and `Close` returns the result of the wrapped `Close`. In every
case the buffered writer is left as its flush leaves it. -/
theorem close_flushes_then_closes (w : bufferWrapper) :
    w.Close.1.buffer = w.buffer.Flush.1 ∧
    (∀ e, w.Flush.2 = some e →
      w.Close.2 = some e ∧ w.Close.1.handler.calls = w.Flush.1.handler.calls ∧
      Call.Close ∉ w.Close.1.handler.calls.drop w.handler.calls.length) ∧
    (∀ e, w.buffer.Flush.2 = some e →
      w.Close.2 = some e ∧ w.Close.1.handler.calls = w.handler.calls) ∧
    (∀ e, w.buffer.Flush.2 = none → w.handler.flushErr = some e →
      w.Close.2 = some e ∧ w.Close.1.handler.calls = w.handler.calls ++ [Call.Flush]) ∧
    (w.buffer.Flush.2 = none → w.handler.flushErr = none →
      w.Close.2 = w.handler.closeErr ∧
      w.Close.1.handler.calls = w.handler.calls ++ [Call.Flush, Call.Close]) := by
  unfold bufferWrapper.Close bufferWrapper.Flush
  rcases hfl : w.buffer.Flush with ⟨b, _ | e⟩
  · rcases hh : w.handler.flushErr with _ | e2
    · simp [Wrapped.Flush, Wrapped.Close, hh]
    · simp [Wrapped.Flush, Wrapped.Close, hh]
  · simp

/-- Witness for C8: a `bufferWrapper` holding two bytes over a sink that fails every write:
the drain fails, `Close` returns its error and the wrapped handler receives no call. -/
theorem close_flushes_then_closes_witness :
    (bufferWrapper.Close ⟨⟨[1, 2], 16, none, brokenSink⟩, quietHandler⟩).2
        = some "disk full" ∧
      (bufferWrapper.Close ⟨⟨[1, 2], 16, none, brokenSink⟩, quietHandler⟩).1.handler.calls
        = quietHandler.calls :=
  (close_flushes_then_closes ⟨⟨[1, 2], 16, none, brokenSink⟩, quietHandler⟩).2.2.1
    "disk full" (by decide)

/-- The three ways of `bufferWrapper.Close`, evaluated: over a sink that takes every write
the sink gets the bytes and the wrapped handler `Flush` then `Close`; with a wrapped
`Flush` that fails there is no `Close`; over a sink that fails there is no call at all. -/
theorem close_test :
    ((bufferWrapper.Close ⟨⟨[1, 2], 16, none, emptySink⟩, quietHandler⟩).2,
      (bufferWrapper.Close ⟨⟨[1, 2], 16, none, emptySink⟩, quietHandler⟩).1.handler.calls,
      (bufferWrapper.Close ⟨⟨[1, 2], 16, none, emptySink⟩, quietHandler⟩).1.buffer.wr.received)
      = (none, [Call.Flush, Call.Close], [1, 2]) ∧
    ((bufferWrapper.Close
        ⟨⟨[1, 2], 16, none, emptySink⟩, { quietHandler with flushErr := some "sync" }⟩).2,
      (bufferWrapper.Close
        ⟨⟨[1, 2], 16, none, emptySink⟩,
          { quietHandler with flushErr := some "sync" }⟩).1.handler.calls)
      = (some "sync", [Call.Flush]) ∧
    ((bufferWrapper.Close ⟨⟨[1, 2], 16, none, brokenSink⟩, quietHandler⟩).2,
      (bufferWrapper.Close ⟨⟨[1, 2], 16, none, brokenSink⟩, quietHandler⟩).1.handler.calls)
      = (some "disk full", []) := by
  decide

/-! ### Flushing the handlers of a sugared logger -/

/-- The visit of `FlushAll` calls `Flush` once on every handler that is not a sugared
logger, in order, whether or not a non-nil result would end the visit. -/
theorem visitAll_flushVisitor (stop : Bool) (hs : List HandlerRef) (s : Handlers) :
    visitAll stop flushVisitor hs s =
      { s with log := s.log ++ (otherHandlers hs).map (fun p => (p, Call.Flush)) } := by
  induction hs generalizing s with
  | nil => simp [visitAll, otherHandlers]
  | cons h hs ih =>
    cases h with
    | sugared p => simp [visitAll, flushVisitor, otherHandlers, ih]
    | other p => simp [visitAll, flushVisitor, otherHandlers, ih]

/-- Counterexample for C7. A sugared logger with three handlers: itself and the handlers
at 10 and 11, where `Flush` of the handler at 10 returns the error `boom`. Whether or not
a non-nil result ends a visit, `FlushAll` flushes the handlers at 10 and 11 and returns
nil, not `boom`; the sugared logger among the handlers is not flushed. -/
theorem flushAll_drops_error :
    (threeHandlerHeap.logger? 1).map (fun l => l.handlers) =
      some [.sugared 2, .other 10, .other 11] ∧
    twoHandlers.flushErr 10 = some "boom" ∧
    (threeHandlerHeap.sugared? 2).bind
        (fun sl => (sl.FlushAll false threeHandlerHeap twoHandlers).map
          (fun x => (x.1.log, x.2))) =
      some ([(10, Call.Flush), (11, Call.Flush)], none) ∧
    (threeHandlerHeap.sugared? 2).bind
        (fun sl => (sl.FlushAll true threeHandlerHeap twoHandlers).map
          (fun x => (x.1.log, x.2))) =
      some ([(10, Call.Flush), (11, Call.Flush)], none) := by
  decide

/-- C7, amended: `SugaredLogger.FlushAll`, and `SugaredLogger.Flush` which is the same
call, calls `Flush()` once on every registered handler that is not itself a
`*SugaredLogger`, in registration order, whatever those calls return, and returns nil. -/
theorem SugaredLogger.flushAll_flushes_others (stop : Bool) (h : Heap) (sl : SugaredLogger)
    (l : Slog.Logger) (s : Handlers) (hl : h.logger? sl.Logger = some l) :
    sl.FlushAll stop h s =
      some ({ s with
              log := s.log ++ (otherHandlers l.handlers).map (fun p => (p, Call.Flush)) },
            none) ∧
    sl.Flush stop h s = sl.FlushAll stop h s := by
  refine ⟨?_, rfl⟩
  simp [SugaredLogger.FlushAll, hl, visitAll_flushVisitor]

/-- Witness for C7, amended: the sugared logger of the counterexample. -/
theorem SugaredLogger.flushAll_flushes_others_witness :
    SugaredLogger.FlushAll false threeHandlerHeap ⟨1, .TextFormatter false, .Stdout, 300⟩
        twoHandlers =
      some ({ twoHandlers with
              log := twoHandlers.log ++
                (otherHandlers [.sugared 2, .other 10, .other 11]).map
                  (fun p => (p, Call.Flush)) },
            none) :=
  (SugaredLogger.flushAll_flushes_others false threeHandlerHeap
    ⟨1, .TextFormatter false, .Stdout, 300⟩
    { name := "logger", handlers := [.sugared 2, .other 10, .other 11], processors := [],
      exitHandlers := [], ReportCaller := false, ExitFunc := .osExit }
    twoHandlers (by decide)).1

/-! ### Level names -/

/-- Looking up a key of a map given by the list of its entries. -/
theorem lookup_of_mem (names : List (Level × String)) (L : Level) (n : String)
    (hkeys : (names.map Prod.fst).Nodup) (hmem : (L, n) ∈ names) :
    names.lookup L = some n := by
  induction names with
  | nil => simp at hmem
  | cons e rest ih =>
    obtain ⟨k, v⟩ := e
    rw [List.map_cons, List.nodup_cons] at hkeys
    rw [List.lookup_cons]
    rcases List.mem_cons.mp hmem with heq | hrest
    · have hk : L = k := congrArg Prod.fst heq
      have hv : n = v := congrArg Prod.snd heq
      subst hk
      subst hv
      simp
    · have hne : L ≠ k := by
        intro hk
        subst hk
        exact hkeys.1 (List.mem_map.mpr ⟨(L, n), hrest, rfl⟩)
      have hb : (L == k) = false := by simpa using hne
      rw [hb]
      exact ih hkeys.2 hrest

/-- Parsing a name that, ignoring case, is the name of an entry of the map gives the level
of that entry, when names that agree ignoring case belong to the same level. -/
theorem Name2Level_of_mem (c : LevelValues) (names : List (Level × String)) (L : Level)
    (n ln : String)
    (hinj : ∀ e1 ∈ names, ∀ e2 ∈ names, lower e1.2 = lower e2.2 → e1.1 = e2.1)
    (hmem : (L, n) ∈ names) (hln : lower ln = lower n) :
    Name2Level c names ln = (L, none) := by
  unfold Name2Level
  cases hfind : names.find? (fun e => lower e.2 == lower ln) with
  | none =>
    have := List.find?_eq_none.mp hfind (L, n) hmem
    simp [hln] at this
  | some e =>
    have hp := List.find?_some hfind
    have he := List.mem_of_find?_eq_some hfind
    have hlow : lower e.2 = lower n := by
      have : lower e.2 = lower ln := by simpa using hp
      rw [this, hln]
    have := hinj e he (L, n) hmem hlow
    simp [this]

/-- Parsing an alias: a name that, ignoring case, is no name of the map unless of the
entry for the level `target`. -/
theorem Name2Level_alias (c : LevelValues) (names : List (Level × String)) (ln : String)
    (target : Level)
    (hnames : ∀ e ∈ names, lower e.2 = lower ln → e.1 = target)
    (hdirect : (if lower ln = "warn" then (c.WarnLevel, (none : Option GoError))
      else if lower ln = "err" then (c.ErrorLevel, none)
      else if lower ln = "" then (c.InfoLevel, none)
      else (0, some "UnknownLevelName")) = (target, none)) :
    Name2Level c names ln = (target, none) := by
  unfold Name2Level
  cases hfind : names.find? (fun e => lower e.2 == lower ln) with
  | none => exact hdirect
  | some e =>
    have hp := List.find?_some hfind
    have he := List.mem_of_find?_eq_some hfind
    have : lower e.2 = lower ln := by simpa using hp
    simp [hnames e he this]

/-- C10: for a map of level names `names` (each level once, names of different levels
different ignoring case, and none of them `warn`, `err` or empty ignoring case unless it
names Warn, Error or Info) and every entry `(L, n)` of it: `LevelName L` is `n`,
`Name2Level (LevelName L)` is `L` with no error, and the aliases `warn`, `err` and the
empty string parse with no error to Warn, Error and Info. -/
theorem name2Level_levelName_roundtrip (c : LevelValues) (names : List (Level × String))
    (L : Level) (n : String)
    (hkeys : (names.map Prod.fst).Nodup)
    (hinj : ∀ e1 ∈ names, ∀ e2 ∈ names, lower e1.2 = lower e2.2 → e1.1 = e2.1)
    (halias : ∀ e ∈ names, (lower e.2 = "warn" → e.1 = c.WarnLevel) ∧
      (lower e.2 = "err" → e.1 = c.ErrorLevel) ∧ (lower e.2 = "" → e.1 = c.InfoLevel))
    (hmem : (L, n) ∈ names) :
    LevelName names L = n ∧
    Name2Level c names (LevelName names L) = (L, none) ∧
    Name2Level c names "warn" = (c.WarnLevel, none) ∧
    Name2Level c names "err" = (c.ErrorLevel, none) ∧
    Name2Level c names "" = (c.InfoLevel, none) := by
  have hname : LevelName names L = n := by
    simp [LevelName, lookup_of_mem names L n hkeys hmem]
  refine ⟨hname, ?_, ?_, ?_, ?_⟩
  · rw [hname]
    exact Name2Level_of_mem c names L n n hinj hmem rfl
  · exact Name2Level_alias c names "warn" c.WarnLevel
      (fun e he h => (halias e he).1 h)
      (by rw [if_pos (by decide : lower "warn" = "warn")])
  · exact Name2Level_alias c names "err" c.ErrorLevel
      (fun e he h => (halias e he).2.1 h)
      (by rw [if_neg (by decide : ¬ lower "err" = "warn"),
            if_pos (by decide : lower "err" = "err")])
  · exact Name2Level_alias c names "" c.InfoLevel
      (fun e he h => (halias e he).2.2 h)
      (by rw [if_neg (by decide : ¬ lower "" = "warn"), if_neg (by decide : ¬ lower "" = "err"),
            if_pos (by decide : lower "" = "")])

/-- Witness for C10: the map `sampleNames` over the values of `hundreds`, at its entry for
Warn. -/
theorem name2Level_levelName_roundtrip_witness :
    LevelName sampleNames 400 = "WARNING" ∧
    Name2Level hundreds sampleNames (LevelName sampleNames 400) = (400, none) ∧
    Name2Level hundreds sampleNames "warn" = (hundreds.WarnLevel, none) ∧
    Name2Level hundreds sampleNames "err" = (hundreds.ErrorLevel, none) ∧
    Name2Level hundreds sampleNames "" = (hundreds.InfoLevel, none) :=
  name2Level_levelName_roundtrip hundreds sampleNames 400 "WARNING"
    (by decide) (by decide) (by decide) (by decide)

/-! ### Evaluated runs -/

/-- A package state with a handler, an exit handler and another exit function on `std`,
and the state after `Reset()`, evaluated: before, the embedded logger of `std` holds all
three; after, `std` is the sugared logger at the new address 4, whose embedded logger at
3 has only that sugared logger as a handler and an empty chain. -/
theorem reset_test :
    (SetExitFunc (RegisterExitHandler (AddHandler (initial ambient0) (.other 10)) ⟨1, none⟩)
        (.custom 7)).stdLogger? =
      some { name := "stdLogger", handlers := [.sugared 2, .other 10], processors := [],
             exitHandlers := [⟨1, none⟩], ReportCaller := true, ExitFunc := .custom 7 } ∧
    Std (Reset ambient0 (SetExitFunc (RegisterExitHandler
        (AddHandler (initial ambient0) (.other 10)) ⟨1, none⟩) (.custom 7))) = 4 ∧
    (Reset ambient0 (SetExitFunc (RegisterExitHandler
        (AddHandler (initial ambient0) (.other 10)) ⟨1, none⟩) (.custom 7))).stdSugared? =
      some { Logger := 3, Formatter := .TextFormatter false, Output := .Stdout, Level := 700 } ∧
    (Reset ambient0 (SetExitFunc (RegisterExitHandler
        (AddHandler (initial ambient0) (.other 10)) ⟨1, none⟩) (.custom 7))).stdLogger? =
      some { name := "stdLogger", handlers := [.sugared 4], processors := [],
             exitHandlers := [], ReportCaller := true, ExitFunc := .osExit } := by
  decide

/-- Every entry of `sampleNames` round-trips, and names are matched ignoring case. -/
theorem level_names_test :
    (∀ e ∈ sampleNames,
      LevelName sampleNames e.1 = e.2 ∧
      Name2Level hundreds sampleNames (LevelName sampleNames e.1) = (e.1, none)) ∧
    Name2Level hundreds sampleNames "Warning" = (400, none) ∧
    Name2Level hundreds sampleNames "WARN" = (400, none) ∧
    Name2Level hundreds sampleNames "Err" = (300, none) ∧
    Name2Level hundreds sampleNames "" = (600, none) := by
  decide

/-! ### Unknown levels and names -/

/-- Looking up a level that is no key of the map. -/
theorem lookup_of_not_mem (names : List (Level × String)) (l : Level)
    (hl : l ∉ names.map Prod.fst) : names.lookup l = none := by
  induction names with
  | nil => rfl
  | cons e rest ih =>
    obtain ⟨k, v⟩ := e
    rw [List.map_cons, List.mem_cons, not_or] at hl
    rw [List.lookup_cons]
    have hb : (l == k) = false := by simpa using hl.1
    rw [hb]
    exact ih hl.2

/-- Case folding gives the empty string only for the empty string. -/
theorem lower_eq_empty (s : String) (h : lower s = "") : s = "" := by
  cases s with
  | mk d =>
    have hd : d.map Char.toLower = [] := by
      have := congrArg String.data h
      simpa [lower] using this
    have : d = [] := List.map_eq_nil_iff.mp hd
    subst this
    rfl

/-- C11: a name that, ignoring case, is no name of the map `names` and is none of the
aliases `warn`, `err` and the empty string is rejected: `Name2Level` returns the zero
level and a non-nil error; and for a level that is no key of the map `LevelName` returns
`UNKNOWN`. -/
theorem unknown_rejected (c : LevelValues) (names : List (Level × String)) (ln : String)
    (l : Level)
    (hcanon : ∀ e ∈ names, lower e.2 ≠ lower ln)
    (hwarn : lower ln ≠ "warn") (herr : lower ln ≠ "err") (hempty : ln ≠ "")
    (hl : l ∉ names.map Prod.fst) :
    (Name2Level c names ln).1 = 0 ∧ (Name2Level c names ln).2 ≠ none ∧
    LevelName names l = "UNKNOWN" := by
  have hfind : names.find? (fun e => lower e.2 == lower ln) = none := by
    rw [List.find?_eq_none]
    intro e he
    simpa using hcanon e he
  have hlow : lower ln ≠ "" := fun h => hempty (lower_eq_empty ln h)
  have h2 : Name2Level c names ln = (0, some "UnknownLevelName") := by
    simp [Name2Level, hfind, hwarn, herr, hlow]
  refine ⟨by rw [h2], by rw [h2]; simp, ?_⟩
  simp [LevelName, lookup_of_not_mem names l hl]

/-- Witness for C11: the name `unknown` and the level 20 of the library's tests, over the
map `sampleNames`. -/
theorem unknown_rejected_witness :
    (Name2Level hundreds sampleNames "unknown").1 = 0 ∧
    (Name2Level hundreds sampleNames "unknown").2 ≠ none ∧
    LevelName sampleNames 20 = "UNKNOWN" :=
  unknown_rejected hundreds sampleNames "unknown" 20
    (by decide) (by decide) (by decide) (by decide) (by decide)

/-! ### Flush, FlushAll and Close of a sugared logger return -/

/-- The visit of `Close` calls `Close` once on every handler that is not a sugared logger,
in order, whether or not a non-nil result would end the visit. -/
theorem visitAll_closeVisitor (stop : Bool) (hs : List HandlerRef) (s : Handlers) :
    visitAll stop closeVisitor hs s =
      { s with log := s.log ++ (otherHandlers hs).map (fun p => (p, Call.Close)) } := by
  induction hs generalizing s with
  | nil => simp [visitAll, otherHandlers]
  | cons h hs ih =>
    cases h with
    | sugared p => simp [visitAll, closeVisitor, otherHandlers, ih]
    | other p => simp [visitAll, closeVisitor, otherHandlers, ih]

/-- A visit with a callback that always returns nil calls it once on each handler, in
order. -/
theorem visitAll_eq_foldl (stop : Bool)
    (fn : HandlerRef → Handlers → Handlers × Option GoError)
    (hnil : ∀ x t, (fn x t).2 = none) (hs : List HandlerRef) (s : Handlers) :
    visitAll stop fn hs s = hs.foldl (fun t x => (fn x t).1) s := by
  induction hs generalizing s with
  | nil => rfl
  | cons h hs ih => simp [visitAll, hnil, ih]

/-- The handlers that are not sugared loggers are called as often as they are registered. -/
theorem count_otherHandlers (hs : List HandlerRef) (p : Ptr) :
    (otherHandlers hs).count p = hs.count (HandlerRef.other p) := by
  induction hs with
  | nil => rfl
  | cons h hs ih =>
    cases h with
    | sugared q => simp [otherHandlers, ih]
    | other q =>
      by_cases hq : q = p
      · subst hq
        simp [otherHandlers, ih]
      · have hne : ¬ (HandlerRef.other q = HandlerRef.other p) := by
          intro he
          exact hq (HandlerRef.other.inj he)
        simp [otherHandlers, ih, List.count_cons, hq, hne]

/-- A visit whose handlers other than sugared loggers all return on their own is the
visit that records one call on each of them, in order. -/
theorem visitNested_plain (call : Call) (stop : Bool) (kind : Ptr → HandlerKind)
    (enter : Ptr → Handlers → Option (Handlers × Option GoError))
    (hs : List HandlerRef) (s : Handlers)
    (hplain : ∀ p, HandlerRef.other p ∈ hs → kind p = .plain) :
    visitNested stop (nestedVisitor call kind enter) hs s =
      some { s with log := s.log ++ (otherHandlers hs).map (fun p => (p, call)) } := by
  induction hs generalizing s with
  | nil => simp [visitNested, otherHandlers]
  | cons x xs ih =>
    have hxs : ∀ p, HandlerRef.other p ∈ xs → kind p = .plain :=
      fun p hp => hplain p (List.mem_cons_of_mem _ hp)
    cases x with
    | sugared q => simp [visitNested, nestedVisitor, otherHandlers, ih _ hxs]
    | other q =>
      have hq : kind q = .plain := hplain q (List.mem_cons_self _ _)
      simp [visitNested, nestedVisitor, otherHandlers, hq, ih _ hxs]

/-- On the sugared logger of `threeHandlerHeap`, with the handler at 10 a struct that embeds
that sugared logger, `FlushAll` and `Close` return within no depth of nesting. -/
theorem callAll_selfWrap (call : Call) (stop : Bool) (depth : Nat) (s : Handlers) :
    SugaredLogger.callAll call stop threeHandlerHeap selfWrapKind depth
      ⟨1, .TextFormatter false, .Stdout, 300⟩ s = none := by
  have hlog : threeHandlerHeap.logger? 1 =
      some { name := "logger", handlers := [.sugared 2, .other 10, .other 11],
             processors := [], exitHandlers := [], ReportCaller := false,
             ExitFunc := .osExit } := by decide
  have hsug : threeHandlerHeap.sugared? 2 =
      some ⟨1, .TextFormatter false, .Stdout, 300⟩ := by decide
  induction depth generalizing s with
  | zero => rfl
  | succ d ih =>
    simp [SugaredLogger.callAll, hlog, visitNested, nestedVisitor, selfWrapKind, hsug, ih]

/-- Counterexample for C14. The sugared logger at address 2 has three handlers: itself, a
struct at 10 that embeds it (its `Flush` and `Close` are the promoted methods of the
sugared logger, and its dynamic type is not `*SugaredLogger`), and a handler at 11. The
type assertion skips the first handler only: the call on the second enters `FlushAll`
(`Close`) of the same sugared logger again, and so on: there is no depth of nesting
within which `FlushAll` or `Close` returns. -/
theorem flush_reenters_forever :
    (threeHandlerHeap.sugared? 2 = some ⟨1, .TextFormatter false, .Stdout, 300⟩ ∧
      (threeHandlerHeap.logger? 1).map (fun l => l.handlers) =
        some [.sugared 2, .other 10, .other 11] ∧
      selfWrapKind 10 = .embeds 2) ∧
    (¬ ∃ depth, (SugaredLogger.callAll Call.Flush false threeHandlerHeap selfWrapKind depth
        ⟨1, .TextFormatter false, .Stdout, 300⟩ twoHandlers).isSome = true) ∧
    (¬ ∃ depth, (SugaredLogger.callAll Call.Flush true threeHandlerHeap selfWrapKind depth
        ⟨1, .TextFormatter false, .Stdout, 300⟩ twoHandlers).isSome = true) ∧
    (¬ ∃ depth, (SugaredLogger.callAll Call.Close false threeHandlerHeap selfWrapKind depth
        ⟨1, .TextFormatter false, .Stdout, 300⟩ twoHandlers).isSome = true) ∧
    (¬ ∃ depth, (SugaredLogger.callAll Call.Close true threeHandlerHeap selfWrapKind depth
        ⟨1, .TextFormatter false, .Stdout, 300⟩ twoHandlers).isSome = true) := by
  refine ⟨by decide, ?_, ?_, ?_, ?_⟩ <;>
  · rintro ⟨depth, hd⟩
    rw [callAll_selfWrap] at hd
    exact Bool.noConfusion hd

/-- C14, amended: for every sugared logger whose embedded logger has the handlers
`l.handlers`, among them possibly the sugared logger itself, and whose handlers other
than `*SugaredLogger` all have a `Flush` and `Close` that return on their own:
`FlushAll`, `Flush` and `Close` return at every depth of nesting from one on, and return
nil. The calls made are `Flush` (for `Close`: `Close`) on exactly the handlers that are
not sugared loggers, each as often as it is registered, in registration order; a handler
that is a sugared logger receives no call. They are the results of `FlushAll`, `Flush`
and `Close` with the handlers' own calls left out of account. -/
theorem SugaredLogger.callAll_returns_nil (call : Call) (stop : Bool) (h : Heap)
    (kind : Ptr → HandlerKind) (depth : Nat) (sl : SugaredLogger) (l : Slog.Logger)
    (s : Handlers) (hl : h.logger? sl.Logger = some l)
    (hplain : ∀ p, HandlerRef.other p ∈ l.handlers → kind p = .plain) :
    sl.callAll call stop h kind (depth + 1) s =
      some ({ s with
              log := s.log ++ (otherHandlers l.handlers).map (fun p => (p, call)) },
            none) ∧
    (∀ p, (otherHandlers l.handlers).count p = l.handlers.count (HandlerRef.other p)) ∧
    sl.callAll Call.Flush stop h kind (depth + 1) s = sl.FlushAll stop h s ∧
    sl.callAll Call.Flush stop h kind (depth + 1) s = sl.Flush stop h s ∧
    sl.callAll Call.Close stop h kind (depth + 1) s = sl.Close stop h s := by
  have key : ∀ c : Call, sl.callAll c stop h kind (depth + 1) s =
      some ({ s with
              log := s.log ++ (otherHandlers l.handlers).map (fun p => (p, c)) },
            none) := by
    intro c
    simp [SugaredLogger.callAll, hl, visitNested_plain c stop kind _ l.handlers s hplain]
  refine ⟨key call, count_otherHandlers l.handlers, ?_, ?_, ?_⟩
  · rw [key]
    simp [SugaredLogger.FlushAll, hl, visitAll_flushVisitor]
  · rw [key]
    simp [SugaredLogger.Flush, SugaredLogger.FlushAll, hl, visitAll_flushVisitor]
  · rw [key]
    simp [SugaredLogger.Close, hl, visitAll_closeVisitor]

/-- Witness for C14, amended: `Close` on the sugared logger at address 2 of
`threeHandlerHeap`, which is registered as the first of its own three handlers, with the
handlers at 10 and 11 returning on their own. -/
theorem SugaredLogger.callAll_returns_nil_witness :
    SugaredLogger.callAll Call.Close true threeHandlerHeap (fun _ => .plain) (0 + 1)
        ⟨1, .TextFormatter false, .Stdout, 300⟩ twoHandlers =
      some ({ twoHandlers with
              log := twoHandlers.log ++
                (otherHandlers [.sugared 2, .other 10, .other 11]).map
                  (fun p => (p, Call.Close)) },
            none) :=
  (SugaredLogger.callAll_returns_nil Call.Close true threeHandlerHeap (fun _ => .plain) 0
    ⟨1, .TextFormatter false, .Stdout, 300⟩
    { name := "logger", handlers := [.sugared 2, .other 10, .other 11], processors := [],
      exitHandlers := [], ReportCaller := false, ExitFunc := .osExit }
    twoHandlers (by decide) (fun _ _ => rfl)).1

/-- The calls of the witness, evaluated: `Flush` and `Close` on a sugared logger that is
its own first handler return nil after calling the handlers at 10 and 11 and nothing
else. With the handler at 10 a struct that embeds the sugared logger, they do not return
within a nesting depth of 5. -/
theorem flush_close_test :
    (threeHandlerHeap.sugared? 2).bind
        (fun sl => (sl.Flush false threeHandlerHeap twoHandlers).map
          (fun x => (x.1.log, x.2))) =
      some ([(10, Call.Flush), (11, Call.Flush)], none) ∧
    (threeHandlerHeap.sugared? 2).bind
        (fun sl => (sl.Close false threeHandlerHeap twoHandlers).map
          (fun x => (x.1.log, x.2))) =
      some ([(10, Call.Close), (11, Call.Close)], none) ∧
    (threeHandlerHeap.sugared? 2).bind
        (fun sl => (sl.callAll Call.Flush false threeHandlerHeap (fun _ => .plain) 1
          twoHandlers).map (fun x => (x.1.log, x.2))) =
      some ([(10, Call.Flush), (11, Call.Flush)], none) ∧
    (threeHandlerHeap.sugared? 2).bind
        (fun sl => (sl.callAll Call.Flush false threeHandlerHeap selfWrapKind 5
          twoHandlers).map (fun x => (x.1.log, x.2))) = none := by
  decide

/-! ### A write to the buffered writer returns -/

/-- A write to a sink that keeps the contract of `io.Writer`: the sink keeps the contract,
and a write without error has taken all the bytes. -/
theorem Sink.write_conforming (s : Sink) (p : Bytes) (h : s.Conforming) :
    (s.Write p).1.Conforming ∧ ((s.Write p).2.2 = none → (s.Write p).2.1 = p.length) := by
  refine ⟨fun r q hq => h r q hq, ?_⟩
  intro he
  have := h s.received p he
  simp only [Sink.Write]
  exact Nat.min_eq_right this

/-- After a flush the writer has a sticky error or an empty buffer. -/
theorem Writer.flush_err_or_empty (b : Writer) :
    b.Flush.1.err ≠ none ∨ b.Flush.1.buf = [] := by
  unfold Writer.Flush
  cases herr : b.err with
  | some e => left; simp [herr]
  | none =>
    by_cases h0 : b.buf.length = 0
    · right
      simp only [h0, if_true]
      exact List.length_eq_zero.mp h0
    · simp only [h0, if_false]
      split
      · left; simp
      · right; rfl

/-- A flush does not change how the sink answers. -/
theorem Writer.flush_respond (b : Writer) : b.Flush.1.wr.respond = b.wr.respond := by
  unfold Writer.Flush
  cases herr : b.err with
  | some e => rfl
  | none =>
    by_cases h0 : b.buf.length = 0
    · simp [h0]
    · simp only [h0, if_false]
      split <;> rfl

/-- The loop of `Write` on an empty buffer ends after one more iteration, over a sink that
keeps the contract of `io.Writer`. -/
theorem Writer.writeLoop_direct_returns (fuel : Nat) (b : Writer) (p : Bytes) (nn : Nat)
    (hconf : b.wr.Conforming) (hbuf : b.buf = []) :
    (Writer.writeLoop (fuel + 1) b p nn).isSome = true := by
  by_cases hcond : p.length > b.Available ∧ b.err = none
  · have hB : b.Buffered = 0 := by simp [Writer.Buffered, hbuf]
    simp only [Writer.writeLoop, hcond, and_self, if_true, hB]
    rw [Writer.writeLoop_exit]
    · rfl
    · intro hc
      have hlen := (Sink.write_conforming b.wr p hconf).2 hc.2
      have h1 := hc.1
      rw [hlen] at h1
      simp at h1
  · rw [Writer.writeLoop_exit _ _ _ _ hcond]
    rfl

/-- One iteration of the loop of `Write`. -/
theorem Writer.writeLoop_succ (fuel : Nat) (b : Writer) (p : Bytes) (nn : Nat) :
    Writer.writeLoop (fuel + 1) b p nn =
      if p.length > b.Available ∧ b.err = none then
        if b.Buffered = 0 then
          Writer.writeLoop fuel { b with wr := (b.wr.Write p).1, err := (b.wr.Write p).2.2 }
            (p.drop (b.wr.Write p).2.1) (nn + (b.wr.Write p).2.1)
        else
          Writer.writeLoop fuel
            (({ b with buf := b.buf ++ p.take (min b.Available p.length) } : Writer).Flush.1)
            (p.drop (min b.Available p.length)) (nn + min b.Available p.length)
      else some (b, p, nn) := by
  rfl

/-- The loop of `Write` ends after at most two iterations, over a sink that keeps the
contract of `io.Writer`. -/
theorem Writer.writeLoop_returns (fuel : Nat) (b : Writer) (p : Bytes) (nn : Nat)
    (hconf : b.wr.Conforming) :
    (Writer.writeLoop (fuel + 2) b p nn).isSome = true := by
  by_cases hcond : p.length > b.Available ∧ b.err = none
  · by_cases hB : b.Buffered = 0
    · exact Writer.writeLoop_direct_returns (fuel + 1) b p nn hconf
        (List.length_eq_zero.mp hB)
    · rw [Writer.writeLoop_succ, if_pos hcond, if_neg hB]
      rcases Writer.flush_err_or_empty
          ({ b with buf := b.buf ++ p.take (min b.Available p.length) } : Writer) with he | hb
      · rw [Writer.writeLoop_exit]
        · rfl
        · intro hc
          exact he hc.2
      · apply Writer.writeLoop_direct_returns
        · intro r q hq
          rw [Writer.flush_respond] at hq ⊢
          exact hconf r q hq
        · exact hb
  · rw [Writer.writeLoop_exit _ _ _ _ hcond]
    rfl

/-- A write to the buffered writer returns, over a sink that keeps the contract of
`io.Writer`. -/
theorem Writer.write_returns (b : Writer) (p : Bytes) (hconf : b.wr.Conforming) :
    ∃ r, b.Write p = some r := by
  have hloop : ∃ x, Writer.writeLoop (p.length + 1) b p 0 = some x := by
    cases hp : p.length with
    | zero =>
      have hx : ¬ (p.length > b.Available ∧ b.err = none) := by
        intro hc
        rw [hp] at hc
        exact Nat.not_lt_zero _ hc.1
      exact ⟨_, Writer.writeLoop_exit _ b p 0 hx⟩
    | succ k =>
      exact Option.isSome_iff_exists.mp (Writer.writeLoop_returns k b p 0 hconf)
  obtain ⟨⟨b1, p1, nn⟩, hx⟩ := hloop
  unfold Writer.Write
  rw [hx]
  dsimp only
  split <;> exact ⟨_, rfl⟩

/-! ### Handling a record -/

/-- C12: for `SugaredLogger.Handle`, `SimpleFileHandler.Handle` and `bufferWrapper.Handle`
and every record. If the formatter returns an error, `Handle` returns that error and
leaves its writer (output writer, file, buffered writer) as it was, with no `Write` made
on it. If the formatter returns bytes, `Handle` makes one `Write` on its writer, with
exactly those bytes, and returns the error of that write; for the `bufferWrapper` the
write is on the buffered writer and returns when the sink below keeps the contract of
`io.Writer`. The write of `SimpleFileHandler` is on the file itself: a write without
error leaves the bytes in the file. -/
theorem handle_formats_then_writes_once
    (format : Slog.Formatter → Record → Except GoError Bytes) (sl : SugaredLogger)
    (out : Recorder) (h : SimpleFileHandler) (w : bufferWrapper) (record : Record)
    (hconf : w.buffer.wr.Conforming) :
    (∀ e, format sl.Formatter record = .error e →
      sl.Handle format record out = (out, some e)) ∧
    (∀ bts, format sl.Formatter record = .ok bts →
      (sl.Handle format record out).1.writes = out.writes ++ [bts] ∧
      (sl.Handle format record out).1.sink = (out.sink.Write bts).1 ∧
      (sl.Handle format record out).2 = (out.sink.Write bts).2.2) ∧
    (∀ e, h.Format record = .error e → h.Handle record = (h, some e)) ∧
    (∀ bts, h.Format record = .ok bts →
      (h.Handle record).1.file.writes = h.file.writes ++ [bts] ∧
      (h.Handle record).1.file.sink = (h.file.sink.Write bts).1 ∧
      (h.Handle record).2 = (h.file.sink.Write bts).2.2 ∧
      (h.file.sink.Conforming → (h.Handle record).2 = none →
        (h.Handle record).1.file.sink.received = h.file.sink.received ++ bts)) ∧
    (∀ e, w.handler.Format record = .error e → w.Handle record = some (w, some e)) ∧
    (∀ bts, w.handler.Format record = .ok bts →
      ∃ r, w.buffer.Write bts = some r ∧
        w.Handle record = some ({ w with buffer := r.1 }, r.2.2)) := by
  refine ⟨?_, ?_, ?_, ?_, ?_, ?_⟩
  · intro e he
    simp [SugaredLogger.Handle, he]
  · intro bts hb
    simp [SugaredLogger.Handle, hb, Recorder.Write]
  · intro e he
    simp [SimpleFileHandler.Handle, he]
  · intro bts hb
    refine ⟨by simp [SimpleFileHandler.Handle, hb, Recorder.Write],
      by simp [SimpleFileHandler.Handle, hb, Recorder.Write],
      by simp [SimpleFileHandler.Handle, hb, Recorder.Write], ?_⟩
    intro hc hnone
    have hnone2 : (h.file.sink.Write bts).2.2 = none := by
      simpa [SimpleFileHandler.Handle, hb, Recorder.Write] using hnone
    have hlen := (Sink.write_conforming h.file.sink bts hc).2 hnone2
    have hrec : (h.file.sink.Write bts).1.received =
        h.file.sink.received ++ bts.take (h.file.sink.Write bts).2.1 := rfl
    rw [hlen, List.take_length] at hrec
    simpa [SimpleFileHandler.Handle, hb, Recorder.Write] using hrec
  · intro e he
    simp [bufferWrapper.Handle, he]
  · intro bts hb
    obtain ⟨r, hr⟩ := Writer.write_returns w.buffer bts hconf
    refine ⟨r, hr, ?_⟩
    obtain ⟨b1, n, e⟩ := r
    simp [bufferWrapper.Handle, hb, hr]

/-- Witness for C12: the record with message `ab` handled by a `bufferWrapper` over a sink
that takes every write, which keeps the contract of `io.Writer`. -/
theorem handle_formats_then_writes_once_witness :
    ∃ r, (BufferWrapper quietHandler emptySink 16).buffer.Write [97, 98] = some r ∧
      (BufferWrapper quietHandler emptySink 16).Handle ⟨600, "application", "ab"⟩ =
        some ({ BufferWrapper quietHandler emptySink 16 with buffer := r.1 }, r.2.2) :=
  (handle_formats_then_writes_once (fun _ => plainFormat)
    ⟨1, .TextFormatter false, .Stdout, 600⟩ ⟨emptySink, []⟩
    ⟨⟨emptySink, []⟩, plainFormat, 600⟩ (BufferWrapper quietHandler emptySink 16)
    ⟨600, "application", "ab"⟩ (fun _ _ _ => Nat.le_refl _)).2.2.2.2.2 [97, 98] rfl

/-- The three `Handle` functions on the record with message `ab` and on a record with an
empty message, which the formatter rejects, evaluated: the writes recorded, the bytes
received and the error returned. -/
theorem handle_test :
    ((SugaredLogger.Handle (fun _ => plainFormat) ⟨1, .TextFormatter false, .Stdout, 600⟩
        ⟨600, "application", "ab"⟩ ⟨emptySink, []⟩).1.writes,
      (SugaredLogger.Handle (fun _ => plainFormat) ⟨1, .TextFormatter false, .Stdout, 600⟩
        ⟨600, "application", "ab"⟩ ⟨emptySink, []⟩).1.sink.received,
      (SugaredLogger.Handle (fun _ => plainFormat) ⟨1, .TextFormatter false, .Stdout, 600⟩
        ⟨600, "application", "ab"⟩ ⟨emptySink, []⟩).2) = ([[97, 98]], [97, 98], none) ∧
    ((SugaredLogger.Handle (fun _ => plainFormat) ⟨1, .TextFormatter false, .Stdout, 600⟩
        ⟨600, "application", ""⟩ ⟨emptySink, []⟩).1.writes,
      (SugaredLogger.Handle (fun _ => plainFormat) ⟨1, .TextFormatter false, .Stdout, 600⟩
        ⟨600, "application", ""⟩ ⟨emptySink, []⟩).2) = ([], some "empty message") ∧
    ((SimpleFileHandler.Handle ⟨⟨brokenSink, []⟩, plainFormat, 600⟩
        ⟨600, "application", "ab"⟩).1.file.writes,
      (SimpleFileHandler.Handle ⟨⟨brokenSink, []⟩, plainFormat, 600⟩
        ⟨600, "application", "ab"⟩).1.file.sink.received,
      (SimpleFileHandler.Handle ⟨⟨brokenSink, []⟩, plainFormat, 600⟩
        ⟨600, "application", "ab"⟩).2) = ([[97, 98]], [], some "disk full") ∧
    ((BufferWrapper quietHandler emptySink 16).Handle ⟨600, "application", "ab"⟩).map
        (fun x => (x.1.buffer.buf, x.1.buffer.wr.received, x.2)) =
      some ([97, 98], [], none) := by
  decide

/-! ### A sugared logger as its own handler -/

/-- After `NewSugaredLogger(out, level)` on any heap, the handler list of the embedded
logger of the new sugared logger `sl` holds `sl` itself and nothing else, and after any
later assignment to `sl.Level`, `sl.Formatter` and `sl.Output` the dispatch accepts
exactly the levels the new `sl.Level` admits and writes with the new formatter to the
new output. -/
theorem NewSugaredLogger_own_handler (a : Ambient) (out : Output) (level : Level) (h : Heap)
    (level2 : Level) (f : Formatter) (out2 : Output) (v : Level) :
    ownHandlers (NewSugaredLogger a out level h).1 (NewSugaredLogger a out level h).2 =
      [.sugared (NewSugaredLogger a out level h).2] ∧
    dispatchTargets
        (assignFields (NewSugaredLogger a out level h).1 (NewSugaredLogger a out level h).2
          level2 f out2)
        (NewSugaredLogger a out level h).2 v =
      if ShouldHandling level2 v then [(f, out2)] else [] := by
  constructor
  · simp [ownHandlers, NewSugaredLogger, New, Heap.updateLogger, Heap.logger?, Heap.sugared?,
      List.lookup, Logger.AddHandler]
  · by_cases hv : ShouldHandling level2 v = true
    · simp [dispatchTargets, ownHandlers, assignFields, NewSugaredLogger, New,
        Heap.updateLogger, Heap.updateSugared, Heap.logger?, Heap.sugared?, List.lookup,
        Logger.AddHandler, SugaredLogger.IsHandling, hv]
    · simp [dispatchTargets, ownHandlers, assignFields, NewSugaredLogger, New,
        Heap.updateLogger, Heap.updateSugared, Heap.logger?, Heap.sugared?, List.lookup,
        Logger.AddHandler, SugaredLogger.IsHandling, hv]

/-- C13, at the failing input. `sl := NewSugaredLogger(w, InfoLevel)` is the sugared logger
at address 2 and its own only handler. After `sl.Reset()` the handler list of the logger
embedded in `sl` holds the sugared logger at address 4, the one allocated inside `Reset`,
and not `sl`. After the assignments `sl.Level = TraceLevel`, `sl.Formatter = JSON`,
`sl.Output = writer 9` the struct at `sl` has the new values, but the dispatch on `sl`
still rejects an Info record and writes an Error record as text to `os.Stdout`; without
the `Reset` the same assignments make it accept the Info record and write it as JSON to
writer 9. -/
theorem reset_handler_is_copy :
    ownHandlers freshHeap 2 = [.sugared 2] ∧
    ownHandlers (SugaredLogger.Reset ambient0 freshHeap 2) 2 = [.sugared 4] ∧
    (assignFields (SugaredLogger.Reset ambient0 freshHeap 2) 2 800 .JSONFormatter
        (.writer 9)).sugared? 2 =
      some { Logger := 3, Formatter := .JSONFormatter, Output := .writer 9, Level := 800 } ∧
    dispatchTargets (assignFields (SugaredLogger.Reset ambient0 freshHeap 2) 2 800
        .JSONFormatter (.writer 9)) 2 600 = [] ∧
    dispatchTargets (assignFields (SugaredLogger.Reset ambient0 freshHeap 2) 2 800
        .JSONFormatter (.writer 9)) 2 300 = [(.TextFormatter false, .Stdout)] ∧
    dispatchTargets (assignFields freshHeap 2 800 .JSONFormatter (.writer 9)) 2 600 =
      [(.JSONFormatter, .writer 9)] := by
  decide

/-- After `sl.Reset()` on any heap on which `sl` is allocated, at an address below the next
free one, the handler list of the logger embedded in `sl` holds the sugared logger
allocated inside `Reset`, whose address is not `sl`. -/
theorem reset_own_handler_not_self (a : Ambient) (h : Heap) (sl : Ptr) (s0 : SugaredLogger)
    (hs : h.sugared? sl = some s0) (hlt : sl < h.next) :
    ownHandlers (SugaredLogger.Reset a h sl) sl = [.sugared (h.next + 1)] ∧
    h.next + 1 ≠ sl := by
  have hlt2 : sl < h.next + 1 := Nat.lt_succ_of_lt hlt
  have hne : h.next + 1 ≠ sl := Nat.ne_of_gt hlt2
  refine ⟨?_, hne⟩
  have hb : (sl == h.next + 1) = false := by
    simpa using fun e : sl = h.next + 1 => hne e.symm
  have hs2 : List.lookup sl h.sugareds = some s0 := hs
  simp [ownHandlers, SugaredLogger.Reset, NewSugaredLogger, New, Heap.updateLogger,
    Heap.updateSugared, Heap.logger?, Heap.sugared?, List.lookup, Logger.AddHandler,
    NewTextFormatter, hb, hs2]

end Slog
